import Mathlib

/-!
Verification of the workflow-import script `import_workflows.py`.

The script synchronizes a directory of workflow-definition JSON files with a
running n8n instance over HTTP.  We embed its data model (JSON values as seen
by Python's `json.load`) and its operations shallowly: every network response
is an explicit input parameter, and every HTTP request the script issues is
recorded in an explicit trace of `Request` values.

Python dictionaries are modelled as association lists with unique keys
(`json.load` produces unique keys; `objSet` replaces in place, `objPop`
removes, lookups take the first match, so on unique-key lists the semantics
coincide with Python's `dict`).
-/

set_option autoImplicit false

deriving instance DecidableEq for Except

namespace ImportWorkflows

/-- JSON values as produced by Python's `json.load`.  Numbers are modelled as
integers (no claim depends on float arithmetic). -/
inductive Json where
  | null : Json
  | bool (b : Bool) : Json
  | num (n : Int) : Json
  | str (s : String) : Json
  | arr (elems : List Json) : Json
  | obj (fields : List (String × Json)) : Json

namespace Json

mutual

/-- Structural equality test for JSON values. -/
def jsonEq : Json → Json → Bool
  | .null, .null => true
  | .bool a, .bool b => a == b
  | .num a, .num b => a == b
  | .str a, .str b => a == b
  | .arr as, .arr bs => eqElems as bs
  | .obj fs, .obj gs => eqFields fs gs
  | _, _ => false

/-- Elementwise equality of JSON arrays. -/
def eqElems : List Json → List Json → Bool
  | [], [] => true
  | a :: as, b :: bs => jsonEq a b && eqElems as bs
  | _, _ => false

/-- Elementwise equality of JSON object field lists. -/
def eqFields : List (String × Json) → List (String × Json) → Bool
  | [], [] => true
  | (k1, v1) :: fs, (k2, v2) :: gs => k1 == k2 && jsonEq v1 v2 && eqFields fs gs
  | _, _ => false

end

mutual

theorem jsonEq_iff : ∀ a b : Json, jsonEq a b = true ↔ a = b
  | .null, .null => by simp [jsonEq]
  | .bool a, .bool b => by simp [jsonEq]
  | .num a, .num b => by simp [jsonEq]
  | .str a, .str b => by simp [jsonEq]
  | .arr as, .arr bs => by simp [jsonEq, eqElems_iff as bs]
  | .obj fs, .obj gs => by simp [jsonEq, eqFields_iff fs gs]
  | .null, .bool _ => by simp [jsonEq]
  | .null, .num _ => by simp [jsonEq]
  | .null, .str _ => by simp [jsonEq]
  | .null, .arr _ => by simp [jsonEq]
  | .null, .obj _ => by simp [jsonEq]
  | .bool _, .null => by simp [jsonEq]
  | .bool _, .num _ => by simp [jsonEq]
  | .bool _, .str _ => by simp [jsonEq]
  | .bool _, .arr _ => by simp [jsonEq]
  | .bool _, .obj _ => by simp [jsonEq]
  | .num _, .null => by simp [jsonEq]
  | .num _, .bool _ => by simp [jsonEq]
  | .num _, .str _ => by simp [jsonEq]
  | .num _, .arr _ => by simp [jsonEq]
  | .num _, .obj _ => by simp [jsonEq]
  | .str _, .null => by simp [jsonEq]
  | .str _, .bool _ => by simp [jsonEq]
  | .str _, .num _ => by simp [jsonEq]
  | .str _, .arr _ => by simp [jsonEq]
  | .str _, .obj _ => by simp [jsonEq]
  | .arr _, .null => by simp [jsonEq]
  | .arr _, .bool _ => by simp [jsonEq]
  | .arr _, .num _ => by simp [jsonEq]
  | .arr _, .str _ => by simp [jsonEq]
  | .arr _, .obj _ => by simp [jsonEq]
  | .obj _, .null => by simp [jsonEq]
  | .obj _, .bool _ => by simp [jsonEq]
  | .obj _, .num _ => by simp [jsonEq]
  | .obj _, .str _ => by simp [jsonEq]
  | .obj _, .arr _ => by simp [jsonEq]

theorem eqElems_iff : ∀ as bs : List Json, eqElems as bs = true ↔ as = bs
  | [], [] => by simp [eqElems]
  | a :: as, b :: bs => by
      simp [eqElems, jsonEq_iff a b, eqElems_iff as bs]
  | [], _ :: _ => by simp [eqElems]
  | _ :: _, [] => by simp [eqElems]

theorem eqFields_iff :
    ∀ fs gs : List (String × Json), eqFields fs gs = true ↔ fs = gs
  | [], [] => by simp [eqFields]
  | (k1, v1) :: fs, (k2, v2) :: gs => by
      simp [eqFields, jsonEq_iff v1 v2, eqFields_iff fs gs, and_assoc]
  | [], _ :: _ => by simp [eqFields]
  | _ :: _, [] => by simp [eqFields]

end

instance instDecEq : DecidableEq Json :=
  fun a b => decidable_of_iff (jsonEq a b = true) (jsonEq_iff a b)

/-- Python truthiness of a JSON value (`if x:`): `None`, `False`, `0`, `""`,
`[]` and the empty dict are falsy, everything else is truthy. -/
def truthy : Json → Bool
  | .null => false
  | .bool b => b
  | .num n => n != 0
  | .str s => !s.isEmpty
  | .arr l => !l.isEmpty
  | .obj l => !l.isEmpty

end Json

/-- `d.get(k)` on a dict's field list, `none` when the key is absent. -/
def objGet (l : List (String × Json)) (k : String) : Option Json :=
  (l.find? (fun p => p.1 = k)).map (fun p => p.2)

/-- `d.get(k, default)`: the stored value when the key is present (even if it
is `null`), the default otherwise. -/
def objGetD (l : List (String × Json)) (k : String) (d : Json) : Json :=
  (objGet l k).getD d

/-- `d[k] = v` on a dict's field list: replace in place when the key exists,
append otherwise (Python dicts keep the insertion position on overwrite). -/
def objSet (l : List (String × Json)) (k : String) (v : Json) :
    List (String × Json) :=
  if l.any (fun p => p.1 = k) then
    l.map (fun p => if p.1 = k then (k, v) else p)
  else
    l ++ [(k, v)]

/-- `d.pop(k, None)` on a dict's field list (the removal effect). -/
def objPop (l : List (String × Json)) (k : String) : List (String × Json) :=
  l.filter (fun p => p.1 ≠ k)

@[simp] theorem objGet_nil (k : String) : objGet [] k = none := rfl

theorem objGet_cons (p : String × Json) (l : List (String × Json)) (k : String) :
    objGet (p :: l) k = if p.1 = k then some p.2 else objGet l k := by
  by_cases h : p.1 = k <;> simp [objGet, List.find?, h]

theorem objGet_map_set_self (l : List (String × Json)) (k : String) (v : Json)
    (h : l.any (fun p => p.1 = k) = true) :
    objGet (l.map (fun p => if p.1 = k then (k, v) else p)) k = some v := by
  induction l with
  | nil => simp at h
  | cons p t ih =>
    by_cases hp : p.1 = k
    · rw [List.map_cons, if_pos hp, objGet_cons]
      simp
    · rw [List.map_cons, if_neg hp, objGet_cons, if_neg hp]
      apply ih
      simpa [List.any_cons, hp] using h

theorem objGet_map_set_other (l : List (String × Json)) (k k' : String)
    (v : Json) (h : k' ≠ k) :
    objGet (l.map (fun p => if p.1 = k then (k, v) else p)) k' = objGet l k' := by
  induction l with
  | nil => rfl
  | cons p t ih =>
    by_cases hp : p.1 = k
    · rw [List.map_cons, if_pos hp, objGet_cons, objGet_cons, ih]
      rw [if_neg (Ne.symm h), if_neg (by rw [hp]; exact Ne.symm h)]
    · rw [List.map_cons, if_neg hp, objGet_cons, objGet_cons, ih]

theorem objGet_append_single_self (l : List (String × Json)) (k : String)
    (v : Json) (h : ¬ l.any (fun p => p.1 = k) = true) :
    objGet (l ++ [(k, v)]) k = some v := by
  induction l with
  | nil => simp [objGet_cons]
  | cons p t ih =>
    simp only [List.any_cons, Bool.or_eq_true, not_or] at h
    have hp : ¬ p.1 = k := by simpa using h.1
    rw [List.cons_append, objGet_cons, if_neg hp]
    exact ih (by simpa using h.2)

theorem objGet_append_single_other (l : List (String × Json)) (k k' : String)
    (v : Json) (h : k' ≠ k) :
    objGet (l ++ [(k, v)]) k' = objGet l k' := by
  induction l with
  | nil => simp [objGet_cons, Ne.symm h]
  | cons p t ih =>
    rw [List.cons_append, objGet_cons, objGet_cons, ih]

theorem objGet_objSet_self (l : List (String × Json)) (k : String) (v : Json) :
    objGet (objSet l k v) k = some v := by
  unfold objSet
  by_cases h : l.any (fun p => p.1 = k)
  · rw [if_pos h]; exact objGet_map_set_self l k v h
  · rw [if_neg h]
    exact objGet_append_single_self l k v h

theorem objGet_objSet_other (l : List (String × Json)) (k k' : String)
    (v : Json) (h : k' ≠ k) : objGet (objSet l k v) k' = objGet l k' := by
  unfold objSet
  by_cases ha : l.any (fun p => p.1 = k)
  · rw [if_pos ha]; exact objGet_map_set_other l k k' v h
  · rw [if_neg ha]; exact objGet_append_single_other l k k' v h

theorem objGet_objPop_self (l : List (String × Json)) (k : String) :
    objGet (objPop l k) k = none := by
  induction l with
  | nil => rfl
  | cons p t ih =>
    by_cases hp : p.1 = k
    · have hstep : objPop (p :: t) k = objPop t k := by
        simp [objPop, List.filter, hp]
      rw [hstep]; exact ih
    · have hstep : objPop (p :: t) k = p :: objPop t k := by
        simp [objPop, List.filter, hp]
      rw [hstep, objGet_cons, if_neg hp]; exact ih

theorem objGet_objPop_other (l : List (String × Json)) (k k' : String)
    (h : k' ≠ k) : objGet (objPop l k) k' = objGet l k' := by
  induction l with
  | nil => rfl
  | cons p t ih =>
    by_cases hp : p.1 = k
    · have hstep : objPop (p :: t) k = objPop t k := by
        simp [objPop, List.filter, hp]
      rw [hstep, ih, objGet_cons, if_neg (by rw [hp]; exact Ne.symm h)]
    · have hstep : objPop (p :: t) k = p :: objPop t k := by
        simp [objPop, List.filter, hp]
      rw [hstep, objGet_cons, objGet_cons, ih]

/-! ### Python dict-key semantics

Dict membership, indexing, insertion and comprehension keys all hash the
key first: lists and dicts are unhashable and raise `TypeError`.  Key
equality is Python `==`, under which `True == 1` and `False == 0` (`bool`
is an `int` subclass). -/

/-- Whether a JSON value is usable as a Python dict key: lists and dicts
are unhashable, and hashing them raises `TypeError`. -/
def Json.hashable : Json → Bool
  | .arr _ => false
  | .obj _ => false
  | _ => true

/-- Canonical representative for Python key equality: booleans compare
equal to the integers 1 and 0. -/
def keyRep : Json → Json
  | .bool b => .num (if b then 1 else 0)
  | j => j

/-- Python `==` as exercised on dict keys: both sides hashable (the only
values that ever reach a key comparison) and equal up to the bool/int
identification. -/
def pyKeyEq (a b : Json) : Bool :=
  a.hashable && b.hashable && decide (keyRep a = keyRep b)

theorem pyKeyEq_iff (a b : Json) :
    pyKeyEq a b = true ↔
      a.hashable = true ∧ b.hashable = true ∧ keyRep a = keyRep b := by
  simp [pyKeyEq, and_assoc]

theorem pyKeyEq_symm (a b : Json) (h : pyKeyEq a b = true) :
    pyKeyEq b a = true := by
  rw [pyKeyEq_iff] at h ⊢
  exact ⟨h.2.1, h.1, h.2.2.symm⟩

theorem pyKeyEq_trans (a b c : Json) (h1 : pyKeyEq a b = true)
    (h2 : pyKeyEq b c = true) : pyKeyEq a c = true := by
  rw [pyKeyEq_iff] at h1 h2 ⊢
  exact ⟨h1.1, h2.2.1, h1.2.2.trans h2.2.2⟩

/-! ### Remote catalog (`get_existing_workflows`)

The script turns the listing response into a Python dict mapping each
workflow's `name` value (default `""`) to the workflow record.  We model
that dict as an association list: insertion overwrites in place (keeping
the originally stored key, as Python does) when a `pyKeyEq`-equal key
exists and appends otherwise, and lookup takes the first `pyKeyEq` match. -/

/-- The in-memory snapshot of existing remote workflows, keyed by the JSON
value stored under `name`. -/
abbrev Catalog := List (Json × Json)

/-- `existing_workflows[k]` / the equality search of `k in
existing_workflows` (the caller checks hashability of `k` first, as the
`hash` call in Python precedes any comparison). -/
def catFind (c : Catalog) (k : Json) : Option Json :=
  (c.find? (fun p => pyKeyEq p.1 k)).map (fun p => p.2)

/-- Dict insertion: overwrite the value in place when a Python-equal key
exists (the stored key object is kept), append otherwise. -/
def catInsert (c : Catalog) (k : Json) (v : Json) : Catalog :=
  if c.any (fun p => pyKeyEq p.1 k) then
    c.map (fun p => if pyKeyEq p.1 k then (p.1, v) else p)
  else
    c ++ [(k, v)]

theorem catFind_nil (k : Json) : catFind [] k = none := rfl

theorem catFind_cons (p : Json × Json) (c : Catalog) (k : Json) :
    catFind (p :: c) k = if pyKeyEq p.1 k then some p.2 else catFind c k := by
  by_cases h : pyKeyEq p.1 k <;> simp [catFind, List.find?, h]

/-- A successful lookup implies the probe was hashable. -/
theorem catFind_some_hashable (c : Catalog) (k r : Json)
    (h : catFind c k = some r) : k.hashable = true := by
  induction c with
  | nil => simp [catFind] at h
  | cons p t ih =>
    rw [catFind_cons] at h
    by_cases hp : pyKeyEq p.1 k = true
    · exact ((pyKeyEq_iff p.1 k).mp hp).2.1
    · rw [if_neg hp] at h
      exact ih h

theorem catFind_catInsert_match (c : Catalog) (k v n : Json)
    (hkn : pyKeyEq k n = true) :
    catFind (catInsert c k v) n = some v := by
  unfold catInsert
  by_cases h : c.any (fun p => pyKeyEq p.1 k)
  · rw [if_pos h]
    induction c with
    | nil => simp at h
    | cons p t ih =>
      by_cases hp : pyKeyEq p.1 k = true
      · rw [List.map_cons, if_pos hp, catFind_cons]
        rw [if_pos (pyKeyEq_trans p.1 k n hp hkn)]
      · rw [List.map_cons, if_neg hp, catFind_cons]
        have hpn : ¬ pyKeyEq p.1 n = true := fun hpn =>
          hp (pyKeyEq_trans p.1 n k hpn (pyKeyEq_symm k n hkn))
        rw [if_neg hpn]
        exact ih (by simpa [List.any_cons, hp] using h)
  · rw [if_neg h]
    induction c with
    | nil => rw [List.nil_append, catFind_cons, if_pos hkn]
    | cons p t ih =>
      simp only [List.any_cons, Bool.or_eq_true, not_or] at h
      have hp : ¬ pyKeyEq p.1 k = true := by simpa using h.1
      have hpn : ¬ pyKeyEq p.1 n = true := fun hpn =>
        hp (pyKeyEq_trans p.1 n k hpn (pyKeyEq_symm k n hkn))
      rw [List.cons_append, catFind_cons, if_neg hpn]
      exact ih (by simpa using h.2)

theorem catFind_map_replace_nomatch (c : Catalog) (k v n : Json)
    (hkn : ¬ pyKeyEq k n = true) :
    catFind (c.map (fun p => if pyKeyEq p.1 k then (p.1, v) else p)) n
      = catFind c n := by
  induction c with
  | nil => rfl
  | cons p t ih =>
    by_cases hp : pyKeyEq p.1 k = true
    · rw [List.map_cons, if_pos hp, catFind_cons, catFind_cons, ih]
      have hpn : ¬ pyKeyEq p.1 n = true := fun hpn =>
        hkn (pyKeyEq_trans k p.1 n (pyKeyEq_symm p.1 k hp) hpn)
      rw [if_neg hpn, if_neg hpn]
    · rw [List.map_cons, if_neg hp, catFind_cons, catFind_cons, ih]

theorem catFind_append_single_nomatch (c : Catalog) (k v n : Json)
    (hkn : ¬ pyKeyEq k n = true) :
    catFind (c ++ [(k, v)]) n = catFind c n := by
  induction c with
  | nil => simp [catFind_cons, hkn]
  | cons p t ih =>
    rw [List.cons_append, catFind_cons, catFind_cons, ih]

theorem catFind_catInsert_nomatch (c : Catalog) (k v n : Json)
    (hkn : ¬ pyKeyEq k n = true) :
    catFind (catInsert c k v) n = catFind c n := by
  unfold catInsert
  by_cases ha : c.any (fun p => pyKeyEq p.1 k)
  · rw [if_pos ha]
    exact catFind_map_replace_nomatch c k v n hkn
  · rw [if_neg ha]
    exact catFind_append_single_nomatch c k v n hkn

/-- One step of the dict comprehension
`{wf.get("name", ""): wf for wf in workflows if isinstance(wf, dict)}`:
non-dict entries are skipped, dict entries are inserted under their name. -/
def catStep (c : Catalog) (wf : Json) : Catalog :=
  match wf with
  | .obj f => catInsert c (objGetD f "name" (.str "")) (.obj f)
  | _ => c

/-- Whether every dict entry of the response array has a hashable `name`
value.  If not, hashing the key inside the comprehension raises a
`TypeError` that the surrounding handler turns into the empty dict. -/
def namesHashable (ws : List Json) : Bool :=
  ws.all (fun wf =>
    match wf with
    | .obj f => (objGetD f "name" (.str "")).hashable
    | _ => true)

/-- The catalog built from a listing response's workflow array: the dict
comprehension succeeds when every key is hashable, and otherwise the
raised `TypeError` is caught and the whole catalog degrades to empty. -/
def catalogOfList (ws : List Json) : Catalog :=
  if namesHashable ws then ws.foldl catStep [] else []

/-- The last dict entry of `ws` whose `name` value Python-equals `n`
(later entries of the response shadow earlier ones in the comprehension). -/
def lastNamed (n : Json) : List Json → Option Json
  | [] => none
  | wf :: rest =>
    match lastNamed n rest with
    | some w => some w
    | none =>
      match wf with
      | .obj f =>
        if pyKeyEq (objGetD f "name" (.str "")) n then some (.obj f) else none
      | _ => none

theorem catFind_foldl_catStep (ws : List Json) (c : Catalog) (n : Json) :
    catFind (ws.foldl catStep c) n =
      match lastNamed n ws with
      | some w => some w
      | none => catFind c n := by
  induction ws generalizing c with
  | nil => simp [lastNamed]
  | cons wf rest ih =>
    rw [List.foldl_cons, ih]
    cases hlast : lastNamed n rest with
    | some w => simp [lastNamed, hlast]
    | none =>
      cases wf with
      | obj f =>
        by_cases hn : pyKeyEq (objGetD f "name" (.str "")) n = true
        · simp only [lastNamed, hlast, hn, if_pos, catStep]
          exact catFind_catInsert_match c (objGetD f "name" (.str ""))
            (.obj f) n hn
        · simp only [lastNamed, hlast, hn, if_neg, catStep,
            Bool.false_eq_true, if_false]
          exact catFind_catInsert_nomatch c (objGetD f "name" (.str ""))
            (.obj f) n hn
      | null => simp [lastNamed, hlast, catStep]
      | bool b => simp [lastNamed, hlast, catStep]
      | num m => simp [lastNamed, hlast, catStep]
      | str s => simp [lastNamed, hlast, catStep]
      | arr es => simp [lastNamed, hlast, catStep]

/-- When the comprehension succeeds, lookup in the built catalog returns
the last dict entry of the list whose name Python-equals the probe. -/
theorem catFind_catalogOfList (ws : List Json) (n : Json)
    (h : namesHashable ws = true) :
    catFind (catalogOfList ws) n = lastNamed n ws := by
  rw [catalogOfList, if_pos h, catFind_foldl_catStep]
  cases hl : lastNamed n ws <;> simp [hl, catFind_nil]

/-- An unhashable name anywhere in the response collapses the catalog to
empty (the comprehension's `TypeError` is caught at the fetch site). -/
theorem catalogOfList_unhashable (ws : List Json)
    (h : namesHashable ws = false) : catalogOfList ws = [] := by
  rw [catalogOfList, if_neg (by simp [h])]

/-- The 200-status branch of `get_existing_workflows`: tolerate a bare list,
a dict wrapping the list under `data` or `workflows`, or anything else
(warning, empty dict).  Iterating a non-list value either yields no dict
entries (strings yield characters, dicts yield their keys) or raises a
`TypeError` that the surrounding handler turns into an empty dict, so every
non-list shape produces the empty catalog. -/
def getExisting200 (body : Json) : Catalog :=
  match body with
  | .obj f =>
    match objGetD f "data" (objGetD f "workflows" (.arr [])) with
    | .arr ws => catalogOfList ws
    | _ => []
  | .arr ws => catalogOfList ws
  | _ => []

/-- Whether a response body is of one of the two structured shapes the
script recognizes (a JSON array or a JSON object). -/
def isListOrDict (b : Json) : Bool :=
  match b with
  | .arr _ => true
  | .obj _ => true
  | _ => false

/-! ### HTTP requests and authentication headers -/

inductive Method where
  | GET : Method
  | POST : Method
  | PUT : Method
  deriving DecidableEq

/-- The endpoints the script addresses.  The two `...Id` constructors carry
the JSON value interpolated into the request path. -/
inductive Endpoint where
  | restLogin : Endpoint
  | restWorkflows : Endpoint
  | apiWorkflows : Endpoint
  | restCredentials : Endpoint
  | restWorkflowsId (id : Json) : Endpoint
  | apiWorkflowsId (id : Json) : Endpoint
  deriving DecidableEq

/-- An HTTP request issued by the script. -/
structure Request where
  method : Method
  endpoint : Endpoint
  headers : List (String × String)
  body : Option Json
  deriving DecidableEq

/-- The `X-N8N-API-KEY` header, attached only when an API key is present
(and truthy) and no cookie session is active
(`if api_key and not session`). -/
def authHeader (hasSession : Bool) (apiKey : Option String) :
    List (String × String) :=
  match apiKey with
  | some k => if !k.isEmpty && !hasSession then [("X-N8N-API-KEY", k)] else []
  | none => []

/-- Headers on the create/update calls: `Content-Type` plus possibly the
API-key header. -/
def writeHeaders (hasSession : Bool) (apiKey : Option String) :
    List (String × String) :=
  ("Content-Type", "application/json") :: authHeader hasSession apiKey

/-- The GET to `/rest/credentials` issued by `get_redis_credential_id`. -/
def credLookupReq (hasSession : Bool) (apiKey : Option String) : Request :=
  { method := .GET, endpoint := .restCredentials,
    headers := authHeader hasSession apiKey, body := none }

/-- The GET listing workflows: `/rest/workflows` with a session,
`/api/v1/workflows` with an API key.  Used both for the initial
connectivity probe in `main` and by `get_existing_workflows`. -/
def listWorkflowsReq (hasSession : Bool) (apiKey : Option String) : Request :=
  { method := .GET,
    endpoint := if hasSession then .restWorkflows else .apiWorkflows,
    headers := authHeader hasSession apiKey, body := none }

/-- The POST to `/rest/login` issued by `login_with_credentials`. -/
def loginReq (email password : String) : Request :=
  { method := .POST, endpoint := .restLogin,
    headers := [("Content-Type", "application/json")],
    body := some (.obj [("emailOrLdapLoginId", .str email),
                        ("password", .str password)]) }

/-! ### Credential auto-wiring (`assign_redis_credentials`)

Failures are modelled with `Except`: in Python, applying `.get` to a
non-dict value or iterating a non-iterable raises, and `import_workflow`
does not catch exceptions at this point, so they propagate to `main`'s
per-file handler. -/

/-- The node types that receive the Redis credential. -/
def redisNodeTypes : List Json :=
  [.str "n8n-nodes-base.redis", .str "n8n-nodes-base.redisTrigger"]

/-- The credential reference injected into a Redis node.  The script stores
`redis_credential_id` exactly as returned by `get_redis_credential_id`
(an arbitrary JSON value, the `id` field of the remote credential). -/
def redisRef (credId : Json) : Json :=
  .obj [("id", credId), ("name", .str "Redis Local")]

/-- One loop iteration of `assign_redis_credentials` on one node descriptor.
Returns the (possibly updated) node and whether an injection happened. -/
def assignNode (credId : Json) (node : Json) : Except String (Json × Bool) :=
  match node with
  | .obj nf =>
    if objGetD nf "type" (.str "") ∈ redisNodeTypes then
      match objGetD nf "credentials" (.obj []) with
      | .obj cf =>
        if (objGetD cf "redis" .null).truthy then
          .ok (.obj nf, false)
        else
          .ok (.obj (objSet nf "credentials"
                (.obj (objSet cf "redis" (redisRef credId)))), true)
      | _ => .error "AttributeError: credentials value has no attribute get"
    else
      .ok (.obj nf, false)
  | _ => .error "AttributeError: node has no attribute get"

/-- The loop of `assign_redis_credentials` over the node list, threading the
`updated` flag; the first raised exception aborts the loop. -/
def assignNodes (credId : Json) : List Json → Except String (List Json × Bool)
  | [] => .ok ([], false)
  | n :: rest =>
    match assignNode credId n with
    | .error e => .error e
    | .ok (n', b) =>
      match assignNodes credId rest with
      | .error e => .error e
      | .ok (rest', b') => .ok (n' :: rest', b || b')

/-- `assign_redis_credentials` on a workflow dict's field list.  `nodes`
absent means `workflow_data.get("nodes", [])` yields a fresh empty list and
nothing is mutated; an empty string or empty dict iterates zero times;
any other non-list value raises on iteration or on `node.get`. -/
def assignRedisFields (credId : Json) (wfFields : List (String × Json)) :
    Except String (List (String × Json) × Bool) :=
  match objGet wfFields "nodes" with
  | none => .ok (wfFields, false)
  | some (.arr nodes) =>
    match assignNodes credId nodes with
    | .error e => .error e
    | .ok (nodes', b) => .ok (objSet wfFields "nodes" (.arr nodes'), b)
  | some (.str s) =>
    if s.isEmpty then .ok (wfFields, false)
    else .error "AttributeError: node has no attribute get"
  | some (.obj f) =>
    if f.isEmpty then .ok (wfFields, false)
    else .error "AttributeError: node has no attribute get"
  | some _ => .error "TypeError: value is not iterable"

/-- `assign_redis_credentials(workflow_data, redis_credential_id)`. -/
def assignRedisCredentials (wf : Json) (credId : Json) :
    Except String (Json × Bool) :=
  match wf with
  | .obj f =>
    match assignRedisFields credId f with
    | .error e => .error e
    | .ok (f', b) => .ok (.obj f', b)
  | _ => .error "AttributeError: workflow data has no attribute get"

/-! ### Advisory check (`check_credentials_needed`) -/

/-- The fixed type-to-label table of credential-bearing node types. -/
def credentialNodes : List (Json × String) :=
  [(.str "n8n-nodes-base.redis", "Redis"),
   (.str "n8n-nodes-base.postgres", "PostgreSQL"),
   (.str "n8n-nodes-base.mysql", "MySQL"),
   (.str "n8n-nodes-base.httpRequest", "HTTP Request (potentially)")]

/-- One loop iteration of `check_credentials_needed`: `some label` when the
node is of a credential-bearing type and has no truthy credential value.
The membership test `node_type in credential_nodes` hashes the type value
first, so an unhashable (list or dict) type raises `TypeError`; the table
keys are strings, so for hashable probes the structural search below
agrees with Python equality. -/
def checkNode (node : Json) : Except String (Option String) :=
  match node with
  | .obj nf =>
    if (objGetD nf "type" (.str "")).hashable then
      match credentialNodes.find? (fun p => p.1 = objGetD nf "type" (.str "")) with
      | none => .ok none
      | some (_, label) =>
        let creds := objGetD nf "credentials" (.obj [])
        if creds.truthy then
          match creds with
          | .obj cf => .ok (if cf.any (fun p => p.2.truthy) then none else some label)
          | _ => .error "AttributeError: credentials value has no attribute values"
        else
          .ok (some label)
    else
      .error "TypeError: unhashable type value"
  | _ => .error "AttributeError: node has no attribute get"

/-- The loop of `check_credentials_needed` over the node list. -/
def checkNodes : List Json → Except String (List String)
  | [] => .ok []
  | n :: rest =>
    match checkNode n with
    | .error e => .error e
    | .ok o =>
      match checkNodes rest with
      | .error e => .error e
      | .ok rest' => .ok (o.toList ++ rest')

/-- `check_credentials_needed` on a workflow dict's field list. -/
def checkCredsFields (wfFields : List (String × Json)) :
    Except String (List String) :=
  match objGet wfFields "nodes" with
  | none => .ok []
  | some (.arr nodes) => checkNodes nodes
  | some (.str s) =>
    if s.isEmpty then .ok []
    else .error "AttributeError: node has no attribute get"
  | some (.obj f) =>
    if f.isEmpty then .ok []
    else .error "AttributeError: node has no attribute get"
  | some _ => .error "TypeError: value is not iterable"

/-! ### The sync engine (`import_workflow`) -/

/-- The read-only fields stripped before transmission. -/
def readOnlyFields : List String :=
  ["active", "id", "createdAt", "updatedAt", "versionId", "tags"]

/-- The stripping loop `for field in read_only_fields: workflow_data.pop(field, None)`. -/
def stripFields (l : List (String × Json)) : List (String × Json) :=
  readOnlyFields.foldl objPop l

/-- The auto-wiring step of `import_workflow`: `assign_redis_credentials` is
called only when `get_redis_credential_id` returned a truthy value
(`if redis_cred_id:`); otherwise the workflow dict is left untouched. -/
def importAssign (credId : Option Json) (l : List (String × Json)) :
    Except String (List (String × Json) × Bool) :=
  match credId with
  | some cid => if cid.truthy then assignRedisFields cid l else .ok (l, false)
  | none => .ok (l, false)

/-- Per-file environment inputs: the result `get_redis_credential_id`
obtained from its own HTTP call (`none` models both a missing credential
and any swallowed failure of the lookup), and the result of the single
write call (`Except.error` is a transport failure, `Except.ok s` an HTTP
status).  The success-path `response.json()` is assumed parseable; its
body is not used by any property considered here. -/
structure SyncEnv where
  redisCredId : Option Json
  writeResult : Except Unit Nat
  deriving DecidableEq

/-- `response.status_code in [200, 201]` on the write call, with a transport
failure caught as `False`. -/
def successStatus (w : Except Unit Nat) : Bool :=
  match w with
  | .ok s => s == 200 || s == 201
  | .error _ => false

/-- The PUT updating an existing workflow, addressed by its remote id. -/
def updateReq (hasSession : Bool) (apiKey : Option String) (wid : Json)
    (bodyFields : List (String × Json)) : Request :=
  { method := .PUT,
    endpoint := if hasSession then .restWorkflowsId wid else .apiWorkflowsId wid,
    headers := writeHeaders hasSession apiKey, body := some (.obj bodyFields) }

/-- The POST creating a new workflow. -/
def createReq (hasSession : Bool) (apiKey : Option String)
    (bodyFields : List (String × Json)) : Request :=
  { method := .POST,
    endpoint := if hasSession then .restWorkflows else .apiWorkflows,
    headers := writeHeaders hasSession apiKey, body := some (.obj bodyFields) }

/-- Return value of the create path: `True` on a 200/201 status, except that
an exception raised by the advisory `check_credentials_needed` call after a
successful POST is caught by the surrounding generic handler and turns the
result into `False`. -/
def createResult (w : Except Unit Nat) (bodyFields : List (String × Json)) :
    Bool :=
  if successStatus w then
    match checkCredsFields bodyFields with
    | .ok _ => true
    | .error _ => false
  else
    false

/-- `import_workflow(workflow_data, ..., existing_workflows, session,
api_key, update_existing)`.  Returns the trace of HTTP requests issued for
this file and either the function's boolean result or the uncaught
exception that propagates to `main`'s per-file handler. -/
def importWorkflow (wf : Json) (existing : Catalog) (hasSession : Bool)
    (apiKey : Option String) (updateExisting : Bool) (env : SyncEnv) :
    List Request × Except String Bool :=
  match wf with
  | .obj fields0 =>
    let workflowName := objGetD fields0 "name" (.str "Unknown")
    let fields1 := stripFields fields0
    match importAssign env.redisCredId fields1 with
    | .error e => ([credLookupReq hasSession apiKey], .error e)
    | .ok (fields2, _) =>
      -- `if workflow_name in existing_workflows:` hashes the name first;
      -- an unhashable name raises TypeError out of import_workflow
      if !workflowName.hashable then
        ([credLookupReq hasSession apiKey],
         .error "TypeError: unhashable workflow name")
      else
      match catFind existing workflowName with
      | some record =>
        if updateExisting then
          match record with
          | .obj rf =>
            let bodyFields := objPop fields2 "id"
            ([credLookupReq hasSession apiKey,
              updateReq hasSession apiKey (objGetD rf "id" .null) bodyFields],
             .ok (successStatus env.writeResult))
          | _ =>
            ([credLookupReq hasSession apiKey],
             .error "AttributeError: record has no attribute get")
        else
          ([credLookupReq hasSession apiKey], .ok false)
      | none =>
        let bodyFields := objPop fields2 "id"
        ([credLookupReq hasSession apiKey,
          createReq hasSession apiKey bodyFields],
         .ok (createResult env.writeResult bodyFields))
  | _ => ([], .error "AttributeError: workflow data has no attribute get")

/-! ### Well-formed local definitions

The spec's data model fixes a Local Workflow Definition to be a record with
a list of node descriptors whose `credentials` entry, when present, is a
mapping.  On that domain the auto-wiring and advisory loops cannot raise. -/

/-- A node descriptor per the spec's data model: a dict whose
`credentials` entry, if present, is itself a dict. -/
def nodeOk (n : Json) : Bool :=
  match n with
  | .obj nf =>
    match objGet nf "credentials" with
    | none => true
    | some (.obj _) => true
    | some _ => false
  | _ => false

/-- A workflow dict whose `nodes` entry, if present, is a list of
well-formed node descriptors. -/
def nodesOk (l : List (String × Json)) : Bool :=
  match objGet l "nodes" with
  | none => true
  | some (.arr ns) => ns.all nodeOk
  | some _ => false

/-! ### Helper lemmas about stripping and auto-wiring -/

theorem objGet_foldl_objPop (fs : List String) (l : List (String × Json))
    (k : String) :
    objGet (fs.foldl objPop l) k = if k ∈ fs then none else objGet l k := by
  induction fs generalizing l with
  | nil => simp
  | cons f fs ih =>
    rw [List.foldl_cons, ih]
    by_cases hf : k ∈ fs
    · simp [hf]
    · by_cases hk : k = f
      · simp [hf, hk, objGet_objPop_self]
      · simp [hf, hk, objGet_objPop_other l f k hk]

theorem objGet_stripFields (l : List (String × Json)) (k : String) :
    objGet (stripFields l) k = if k ∈ readOnlyFields then none else objGet l k :=
  objGet_foldl_objPop readOnlyFields l k

theorem objGet_stripFields_mem (l : List (String × Json)) (k : String)
    (h : k ∈ readOnlyFields) : objGet (stripFields l) k = none := by
  rw [objGet_stripFields, if_pos h]

theorem objGet_stripFields_nodes (l : List (String × Json)) :
    objGet (stripFields l) "nodes" = objGet l "nodes" := by
  rw [objGet_stripFields, if_neg (by decide)]

theorem assignRedisFields_preserves (cid : Json) (l l' : List (String × Json))
    (b : Bool) (h : assignRedisFields cid l = .ok (l', b)) (k : String)
    (hk : k ≠ "nodes") : objGet l' k = objGet l k := by
  cases hn : objGet l "nodes" with
  | none =>
    simp only [assignRedisFields, hn, Except.ok.injEq, Prod.mk.injEq] at h
    rw [← h.1]
  | some v =>
    cases v with
    | arr ns =>
      cases ha : assignNodes cid ns with
      | error e => simp [assignRedisFields, hn, ha] at h
      | ok p =>
        simp only [assignRedisFields, hn, ha, Except.ok.injEq, Prod.mk.injEq] at h
        rw [← h.1]
        exact objGet_objSet_other l "nodes" k (.arr p.1) hk
    | str s =>
      by_cases hs : s.isEmpty <;>
        simp only [assignRedisFields, hn, hs, if_true, if_false, reduceCtorEq,
          Except.ok.injEq, Prod.mk.injEq] at h
      rw [← h.1]
    | obj f =>
      by_cases hf : f.isEmpty <;>
        simp only [assignRedisFields, hn, hf, if_true, if_false, reduceCtorEq,
          Except.ok.injEq, Prod.mk.injEq] at h
      rw [← h.1]
    | null => simp [assignRedisFields, hn] at h
    | bool bb => simp [assignRedisFields, hn] at h
    | num m => simp [assignRedisFields, hn] at h

theorem importAssign_preserves (credId : Option Json)
    (l l' : List (String × Json)) (b : Bool)
    (h : importAssign credId l = .ok (l', b)) (k : String)
    (hk : k ≠ "nodes") : objGet l' k = objGet l k := by
  cases credId with
  | none =>
    simp only [importAssign, Except.ok.injEq, Prod.mk.injEq] at h
    rw [← h.1]
  | some cid =>
    by_cases ht : cid.truthy
    · simp only [importAssign, ht, if_true] at h
      exact assignRedisFields_preserves cid l l' b h k hk
    · simp only [importAssign, ht, if_false, Bool.false_eq_true,
        Except.ok.injEq, Prod.mk.injEq] at h
      rw [← h.1]

theorem assignNode_total (cid n : Json) (h : nodeOk n = true) :
    ∃ r, assignNode cid n = .ok r := by
  cases n with
  | obj nf =>
    by_cases ht : objGetD nf "type" (.str "") ∈ redisNodeTypes
    · cases hc : objGet nf "credentials" with
      | none =>
        have hd : objGetD nf "credentials" (.obj []) = .obj [] := by
          rw [objGetD, hc]; rfl
        by_cases hr : (objGetD [] "redis" .null).truthy <;>
          simp [assignNode, ht, hd, hr]
      | some v =>
        simp only [nodeOk, hc] at h
        cases v with
        | obj cf =>
          have hd : objGetD nf "credentials" (.obj []) = .obj cf := by
            rw [objGetD, hc]; rfl
          by_cases hr : (objGetD cf "redis" .null).truthy <;>
            simp [assignNode, ht, hd, hr]
        | null => simp at h
        | bool bb => simp at h
        | num m => simp at h
        | str s => simp at h
        | arr es => simp at h
    · exact ⟨(.obj nf, false), by simp [assignNode, ht]⟩
  | null => simp [nodeOk] at h
  | bool bb => simp [nodeOk] at h
  | num m => simp [nodeOk] at h
  | str s => simp [nodeOk] at h
  | arr es => simp [nodeOk] at h

theorem assignNodes_total (cid : Json) (ns : List Json)
    (h : ns.all nodeOk = true) : ∃ r, assignNodes cid ns = .ok r := by
  induction ns with
  | nil => exact ⟨([], false), rfl⟩
  | cons n rest ih =>
    simp only [List.all_cons, Bool.and_eq_true] at h
    obtain ⟨⟨n', b⟩, hn⟩ := assignNode_total cid n h.1
    obtain ⟨⟨rest', b'⟩, hrest⟩ := ih h.2
    exact ⟨(n' :: rest', b || b'), by rw [assignNodes, hn, hrest]⟩

theorem assignRedisFields_total (cid : Json) (l : List (String × Json))
    (h : nodesOk l = true) : ∃ r, assignRedisFields cid l = .ok r := by
  cases hn : objGet l "nodes" with
  | none => exact ⟨(l, false), by simp [assignRedisFields, hn]⟩
  | some v =>
    simp only [nodesOk, hn] at h
    cases v with
    | arr ns =>
      obtain ⟨⟨ns', b⟩, ha⟩ := assignNodes_total cid ns h
      exact ⟨(objSet l "nodes" (.arr ns'), b), by simp [assignRedisFields, hn, ha]⟩
    | null => simp at h
    | bool bb => simp at h
    | num m => simp at h
    | str s => simp at h
    | obj f => simp at h

theorem nodesOk_stripFields (l : List (String × Json)) :
    nodesOk (stripFields l) = nodesOk l := by
  unfold nodesOk
  rw [objGet_stripFields_nodes]

theorem importAssign_total (credId : Option Json) (l : List (String × Json))
    (h : nodesOk l = true) : ∃ r, importAssign credId l = .ok r := by
  cases credId with
  | none => exact ⟨(l, false), rfl⟩
  | some cid =>
    by_cases ht : cid.truthy
    · obtain ⟨r, hr⟩ := assignRedisFields_total cid l h
      exact ⟨r, by simp [importAssign, ht, hr]⟩
    · exact ⟨(l, false), by simp [importAssign, ht]⟩

/-! ### The per-file loop and exit logic of `main` -/

/-- Per-file outcome as tallied by `main` (`success_count`, `skip_count`,
`error_count`). -/
inductive Outcome where
  | success : Outcome
  | skip : Outcome
  | error : Outcome
  deriving DecidableEq

structure Counts where
  success : Nat
  skip : Nat
  error : Nat
  deriving DecidableEq

def tallyStep (c : Counts) (o : Outcome) : Counts :=
  match o with
  | .success => { c with success := c.success + 1 }
  | .skip => { c with skip := c.skip + 1 }
  | .error => { c with error := c.error + 1 }

/-- The summary tally of the loop in `main`. -/
def tally (outs : List Outcome) : Counts :=
  outs.foldl tallyStep { success := 0, skip := 0, error := 0 }

/-- Environment inputs for one file of the loop: the result of parsing it
(`json.load`) and the per-file network results. -/
structure FileEnv where
  parsed : Except String Json
  redisCredId : Option Json
  writeResult : Except Unit Nat
  deriving DecidableEq

/-- `workflow_data.get("name")` as evaluated by `main`'s tally
classification (default `None`).  Only reached when `import_workflow`
returned normally, which requires the parsed data to be a dict. -/
def pyName (wf : Json) : Json :=
  match wf with
  | .obj f => objGetD f "name" .null
  | _ => .null

/-- One iteration of `main`'s loop: parse, call `import_workflow`, classify.
A parse failure or an exception propagating out of `import_workflow` is
caught and tallied as an error; a `False` return is tallied as a skip
exactly when `workflow_data.get("name") in existing_workflows and not
args.update`, and as an error otherwise. -/
def processFile (existing : Catalog) (hasSession : Bool)
    (apiKey : Option String) (updateExisting : Bool) (fe : FileEnv) :
    List Request × Outcome :=
  match fe.parsed with
  | .error _ => ([], .error)
  | .ok wf =>
    match importWorkflow wf existing hasSession apiKey updateExisting
        { redisCredId := fe.redisCredId, writeResult := fe.writeResult } with
    | (tr, .error _) => (tr, .error)
    | (tr, .ok true) => (tr, .success)
    | (tr, .ok false) =>
      if (catFind existing (pyName wf)).isSome && !updateExisting then
        (tr, .skip)
      else
        (tr, .error)

/-- Environment inputs of a whole run of `main`:
the outcome of `load_credentials` (`none`, or the extracted email/password
pair), whether the login exchange returns status 200, the outcome of
`load_api_key`, the connectivity probe's result, the catalog listing's
result, the `--update` flag, and the per-file inputs for the sorted file
list. -/
structure RunEnv where
  emailPass : Option (String × String)
  loginOk : Bool
  apiKeyFile : Option String
  probeResult : Except Unit Nat
  catalogResult : Except Unit (Nat × Json)
  updateFlag : Bool
  files : List FileEnv

/-- Result of a run: every HTTP request issued, the process exit status and
the final tally. -/
structure RunResult where
  trace : List Request
  exitCode : Nat
  counts : Counts
  deriving DecidableEq

/-- `if email and password:` — `load_credentials` only returns regex matches
of `[^\s]+`, hence nonempty strings, but the check in `main` is a
truthiness test. -/
def credsTruthy (ep : Option (String × String)) : Bool :=
  match ep with
  | some (e, p) => !e.isEmpty && !p.isEmpty
  | none => false

/-- `if api_key:` truthiness of the `load_api_key` result. -/
def keyTruthy (k : Option String) : Bool :=
  match k with
  | some s => !s.isEmpty
  | none => false

/-- The file-processing phase of `main`: zero files exit 0 immediately
(`sys.exit(0)`), otherwise the loop runs and the final exit status is 1
exactly when `error_count > 0`.  Returns the requests issued, the exit
status and the tally. -/
def runFiles (existing : Catalog) (hasSession : Bool) (apiKey : Option String)
    (updateFlag : Bool) (files : List FileEnv) :
    List Request × Nat × Counts :=
  if files.isEmpty then ([], 0, ⟨0, 0, 0⟩)
  else
    let results := files.map (processFile existing hasSession apiKey updateFlag)
    let c := tally (results.map (fun r => r.2))
    ((results.map (fun r => r.1)).flatten, if c.error > 0 then 1 else 0, c)

/-- The Remote Catalog snapshot obtained by `get_existing_workflows`: a
non-200 status or a transport failure degrades to the empty catalog. -/
def runCatalog (res : Except Unit (Nat × Json)) : Catalog :=
  match res with
  | .ok (s, body) => if s = 200 then getExisting200 body else []
  | .error _ => []

/-- The whole of `main` after argument parsing: authentication resolution
(email/password first, API key as fallback), connectivity probe, catalog
snapshot, per-file loop, summary and exit status. -/
def mainRun (env : RunEnv) : RunResult :=
  let loginTrace :=
    match env.emailPass with
    | some (e, p) => if !e.isEmpty && !p.isEmpty then [loginReq e p] else []
    | none => []
  let hasSession := credsTruthy env.emailPass && env.loginOk
  let apiKey := if hasSession then none else env.apiKeyFile
  if !hasSession && !keyTruthy apiKey then
    -- "No authentication method available!": sys.exit(1)
    { trace := loginTrace, exitCode := 1, counts := ⟨0, 0, 0⟩ }
  else
    let probe := listWorkflowsReq hasSession apiKey
    match env.probeResult with
    | .error _ =>
      -- connectivity probe transport failure: sys.exit(1)
      { trace := loginTrace ++ [probe], exitCode := 1, counts := ⟨0, 0, 0⟩ }
    | .ok status =>
      if status ≠ 200 then
        { trace := loginTrace ++ [probe], exitCode := 1, counts := ⟨0, 0, 0⟩ }
      else
        let catalogTrace := [listWorkflowsReq hasSession apiKey]
        let fileRes := runFiles (runCatalog env.catalogResult) hasSession
          apiKey env.updateFlag env.files
        { trace := loginTrace ++ [probe] ++ catalogTrace ++ fileRes.1,
          exitCode := fileRes.2.1,
          counts := fileRes.2.2 }

/-! ### Claim theorems -/

/-- Field lookup inside a request's JSON body (write bodies are always
objects). -/
def bodyField (r : Request) (f : String) : Option Json :=
  match r.body with
  | some (.obj l) => objGet l f
  | _ => none

/-- Shape of `import_workflow`'s behaviour once the auto-wiring step has
returned normally and the workflow name (or its `"Unknown"` substitute) is
hashable. -/
theorem importWorkflow_shape (fields0 : List (String × Json))
    (existing : Catalog) (hasSession : Bool) (apiKey : Option String)
    (updateExisting : Bool) (env : SyncEnv) (fields2 : List (String × Json))
    (b : Bool)
    (ha : importAssign env.redisCredId (stripFields fields0) = .ok (fields2, b))
    (hh : (objGetD fields0 "name" (.str "Unknown")).hashable = true) :
    importWorkflow (.obj fields0) existing hasSession apiKey updateExisting env =
      match catFind existing (objGetD fields0 "name" (.str "Unknown")) with
      | some record =>
        if updateExisting then
          match record with
          | .obj rf =>
            ([credLookupReq hasSession apiKey,
              updateReq hasSession apiKey (objGetD rf "id" .null)
                (objPop fields2 "id")],
             .ok (successStatus env.writeResult))
          | _ =>
            ([credLookupReq hasSession apiKey],
             .error "AttributeError: record has no attribute get")
        else
          ([credLookupReq hasSession apiKey], .ok false)
      | none =>
        ([credLookupReq hasSession apiKey,
          createReq hasSession apiKey (objPop fields2 "id")],
         .ok (createResult env.writeResult (objPop fields2 "id"))) := by
  simp only [importWorkflow, ha, hh, Bool.not_true, Bool.false_eq_true,
    if_false]

/-- After stripping, auto-wiring and the final `pop("id", None)`, none of
the read-only fields can be present in the outgoing body. -/
theorem payload_no_read_only (fields0 fields2 : List (String × Json))
    (credId : Option Json) (b : Bool)
    (ha : importAssign credId (stripFields fields0) = .ok (fields2, b))
    (f : String) (hf : f ∈ readOnlyFields) :
    objGet (objPop fields2 "id") f = none := by
  by_cases hid : f = "id"
  · subst hid
    exact objGet_objPop_self fields2 "id"
  · rw [objGet_objPop_other fields2 "id" f hid]
    have hnn : f ≠ "nodes" :=
      fun he => (by decide : "nodes" ∉ readOnlyFields) (he ▸ hf)
    rw [importAssign_preserves credId (stripFields fields0) fields2 b ha f hnn]
    exact objGet_stripFields_mem fields0 f hf

/-- Claim C1: for every local workflow definition processed by `import_workflow`,
the payload transmitted to the remote system (via the create POST or the
update PUT) contains none of the fields `active`, `id`, `createdAt`,
`updatedAt`, `versionId`, `tags`: the stripping happens unconditionally
before the create/update/skip decision, and the later Redis credential
injection never reintroduces any of these fields. -/
theorem claim_C1 (wf : Json) (existing : Catalog) (hasSession : Bool)
    (apiKey : Option String) (updateExisting : Bool) (env : SyncEnv)
    (r : Request)
    (hr : r ∈ (importWorkflow wf existing hasSession apiKey updateExisting env).1)
    (hm : r.method = .POST ∨ r.method = .PUT) :
    ∀ f ∈ readOnlyFields, bodyField r f = none := by
  intro f hf
  cases wf with
  | obj fields0 =>
    cases ha : importAssign env.redisCredId (stripFields fields0) with
    | error e =>
      simp only [importWorkflow, ha, List.mem_singleton] at hr
      subst hr
      rcases hm with hm | hm <;> simp [credLookupReq] at hm
    | ok p =>
      obtain ⟨fields2, b⟩ := p
      rcases (Bool.eq_false_or_eq_true
        (objGetD fields0 "name" (.str "Unknown")).hashable).symm with hh | hh
      · simp only [importWorkflow, ha, hh, Bool.not_false, if_true,
          List.mem_singleton] at hr
        subst hr
        rcases hm with hm | hm <;> simp [credLookupReq] at hm
      rw [importWorkflow_shape fields0 existing hasSession apiKey
        updateExisting env fields2 b ha hh] at hr
      cases hc : catFind existing (objGetD fields0 "name" (.str "Unknown")) with
      | none =>
        simp only [hc, List.mem_cons, List.mem_singleton] at hr
        rcases hr with rfl | rfl | hr
        · rcases hm with hm | hm <;> simp [credLookupReq] at hm
        · simp only [bodyField, createReq]
          exact payload_no_read_only fields0 fields2 env.redisCredId b ha f hf
        · exact absurd hr (List.not_mem_nil r)
      | some record =>
        by_cases hu : updateExisting = true
        · simp only [hc, hu, if_true] at hr
          cases record with
          | obj rf =>
            simp only [List.mem_cons, List.mem_singleton] at hr
            rcases hr with rfl | rfl | hr
            · rcases hm with hm | hm <;> simp [credLookupReq] at hm
            · simp only [bodyField, updateReq]
              exact payload_no_read_only fields0 fields2 env.redisCredId b ha f hf
            · exact absurd hr (List.not_mem_nil r)
          | null =>
            simp only [List.mem_singleton] at hr
            subst hr
            rcases hm with hm | hm <;> simp [credLookupReq] at hm
          | bool bb =>
            simp only [List.mem_singleton] at hr
            subst hr
            rcases hm with hm | hm <;> simp [credLookupReq] at hm
          | num m =>
            simp only [List.mem_singleton] at hr
            subst hr
            rcases hm with hm | hm <;> simp [credLookupReq] at hm
          | str s =>
            simp only [List.mem_singleton] at hr
            subst hr
            rcases hm with hm | hm <;> simp [credLookupReq] at hm
          | arr es =>
            simp only [List.mem_singleton] at hr
            subst hr
            rcases hm with hm | hm <;> simp [credLookupReq] at hm
        · simp only [hc, hu, Bool.false_eq_true, if_false, List.mem_singleton] at hr
          subst hr
          rcases hm with hm | hm <;> simp [credLookupReq] at hm
  | null => simp [importWorkflow] at hr
  | bool bb => simp [importWorkflow] at hr
  | num m => simp [importWorkflow] at hr
  | str s => simp [importWorkflow] at hr
  | arr es => simp [importWorkflow] at hr

/-- Witness for C1 at a concrete input: the update PUT for a definition
carrying every read-only field has none of them in its body. -/
theorem claim_C1_witness :
    (∃ r : Request,
      r ∈ (importWorkflow
        (.obj [("name", .str "A"), ("active", .bool true), ("id", .str "9"),
               ("createdAt", .str "t0"), ("updatedAt", .str "t1"),
               ("versionId", .str "v1"), ("tags", .arr [.str "x"])])
        [(.str "A", .obj [("id", .str "7")])] true none true
        { redisCredId := none, writeResult := .ok 200 }).1
      ∧ r.method = .PUT
      ∧ ∀ f ∈ readOnlyFields, bodyField r f = none) := by
  refine ⟨updateReq true none (.str "7") [("name", .str "A")],
    by decide, rfl, ?_⟩
  exact claim_C1
    (.obj [("name", .str "A"), ("active", .bool true), ("id", .str "9"),
           ("createdAt", .str "t0"), ("updatedAt", .str "t1"),
           ("versionId", .str "v1"), ("tags", .arr [.str "x"])])
    [(.str "A", .obj [("id", .str "7")])] true none true
    { redisCredId := none, writeResult := .ok 200 }
    (updateReq true none (.str "7") [("name", .str "A")])
    (by decide) (Or.inr rfl)

theorem importAssign_strip_total (credId : Option Json)
    (fields0 : List (String × Json)) (h : nodesOk fields0 = true) :
    ∃ p, importAssign credId (stripFields fields0) = .ok p :=
  importAssign_total credId (stripFields fields0)
    (by rw [nodesOk_stripFields]; exact h)

/-- Claim C2: for every local definition whose name is a key of the Remote
Catalog snapshot, when update mode is false, `import_workflow` returns
`False` (tallied as a skip by `main`) and issues no create or update call
for that file — the only request in its trace is the credential-lookup
GET. -/
theorem claim_C2 (fields0 : List (String × Json)) (existing : Catalog)
    (hasSession : Bool) (apiKey : Option String) (env : SyncEnv)
    (n rec : Json)
    (hname : objGet fields0 "name" = some n)
    (hmem : catFind existing n = some rec)
    (hwf : nodesOk fields0 = true) :
    importWorkflow (.obj fields0) existing hasSession apiKey false env
      = ([credLookupReq hasSession apiKey], .ok false)
    ∧ processFile existing hasSession apiKey false
        { parsed := .ok (.obj fields0), redisCredId := env.redisCredId,
          writeResult := env.writeResult }
      = ([credLookupReq hasSession apiKey], .skip) := by
  obtain ⟨⟨fields2, b⟩, ha⟩ :=
    importAssign_strip_total env.redisCredId fields0 hwf
  have hN : objGetD fields0 "name" (.str "Unknown") = n := by
    rw [objGetD, hname]; rfl
  have hh : (objGetD fields0 "name" (.str "Unknown")).hashable = true := by
    rw [hN]
    exact catFind_some_hashable existing n rec hmem
  have him : importWorkflow (.obj fields0) existing hasSession apiKey false env
      = ([credLookupReq hasSession apiKey], .ok false) := by
    rw [importWorkflow_shape fields0 existing hasSession apiKey false env
      fields2 b ha hh, hN, hmem]
    simp
  refine ⟨him, ?_⟩
  have hpn : pyName (.obj fields0) = n := by
    simp [pyName, objGetD, hname]
  simp only [processFile, him, hpn, hmem]
  simp

/-- Witness for C2: a named definition already in the snapshot is skipped
without any write call. -/
theorem claim_C2_witness :
    importWorkflow (.obj [("name", .str "A"), ("id", .str "old")])
        [(.str "A", .obj [("id", .str "7")])] true none false
        { redisCredId := none, writeResult := .ok 200 }
      = ([credLookupReq true none], .ok false)
    ∧ processFile [(.str "A", .obj [("id", .str "7")])] true none false
        { parsed := .ok (.obj [("name", .str "A"), ("id", .str "old")]),
          redisCredId := none, writeResult := .ok 200 }
      = ([credLookupReq true none], .skip) :=
  claim_C2 [("name", .str "A"), ("id", .str "old")]
    [(.str "A", .obj [("id", .str "7")])] true none
    { redisCredId := none, writeResult := .ok 200 }
    (.str "A") (.obj [("id", .str "7")])
    (by decide) (by decide) (by decide)

/-- Claim C3: for every local definition whose name is a key of the Remote
Catalog snapshot, when update mode is true, `import_workflow` issues
exactly one update PUT, addressed by the `id` field of that snapshot
record, with no `id` field in the outgoing payload, and no create call:
the trace is exactly the credential-lookup GET followed by the PUT. -/
theorem claim_C3 (fields0 : List (String × Json)) (existing : Catalog)
    (hasSession : Bool) (apiKey : Option String) (env : SyncEnv)
    (n : Json) (rf : List (String × Json))
    (hname : objGet fields0 "name" = some n)
    (hmem : catFind existing n = some (.obj rf))
    (hwf : nodesOk fields0 = true) :
    ∃ bodyFields : List (String × Json),
      importWorkflow (.obj fields0) existing hasSession apiKey true env
        = ([credLookupReq hasSession apiKey,
            updateReq hasSession apiKey (objGetD rf "id" .null) bodyFields],
           .ok (successStatus env.writeResult))
      ∧ objGet bodyFields "id" = none := by
  obtain ⟨⟨fields2, b⟩, ha⟩ :=
    importAssign_strip_total env.redisCredId fields0 hwf
  have hN : objGetD fields0 "name" (.str "Unknown") = n := by
    rw [objGetD, hname]; rfl
  have hh : (objGetD fields0 "name" (.str "Unknown")).hashable = true := by
    rw [hN]
    exact catFind_some_hashable existing n (.obj rf) hmem
  refine ⟨objPop fields2 "id", ?_, objGet_objPop_self fields2 "id"⟩
  rw [importWorkflow_shape fields0 existing hasSession apiKey true env
    fields2 b ha hh, hN, hmem]
  simp

/-- Witness for C3: updating an existing workflow issues one PUT addressed
by the snapshot record's id, with no id in the body. -/
theorem claim_C3_witness :
    ∃ bodyFields : List (String × Json),
      importWorkflow (.obj [("name", .str "A"), ("id", .str "old")])
          [(.str "A", .obj [("id", .str "7")])] true none true
          { redisCredId := none, writeResult := .ok 200 }
        = ([credLookupReq true none,
            updateReq true none (objGetD [("id", .str "7")] "id" .null) bodyFields],
           .ok (successStatus (.ok 200)))
      ∧ objGet bodyFields "id" = none :=
  claim_C3 [("name", .str "A"), ("id", .str "old")]
    [(.str "A", .obj [("id", .str "7")])] true none
    { redisCredId := none, writeResult := .ok 200 }
    (.str "A") [("id", .str "7")]
    (by decide) (by decide) (by decide)

/-- Claim C4: for every local definition whose name is not a key of the Remote
Catalog snapshot, `import_workflow` issues exactly one create POST and no
update call, regardless of the update-mode flag: the trace is exactly the
credential-lookup GET followed by the POST.  The name is required to be a
hashable value (the spec's definitions carry string names); key absence is
Python-equality absence, so a boolean name equal to an integer key counts
as present.  An unhashable name would instead raise `TypeError` at the
membership test, before any write. -/
theorem claim_C4 (fields0 : List (String × Json)) (existing : Catalog)
    (hasSession : Bool) (apiKey : Option String) (updateExisting : Bool)
    (env : SyncEnv) (n : Json)
    (hname : objGet fields0 "name" = some n)
    (hhash : n.hashable = true)
    (hmem : catFind existing n = none)
    (hwf : nodesOk fields0 = true) :
    ∃ (bodyFields : List (String × Json)) (res : Bool),
      importWorkflow (.obj fields0) existing hasSession apiKey
          updateExisting env
        = ([credLookupReq hasSession apiKey,
            createReq hasSession apiKey bodyFields], .ok res) := by
  obtain ⟨⟨fields2, b⟩, ha⟩ :=
    importAssign_strip_total env.redisCredId fields0 hwf
  have hN : objGetD fields0 "name" (.str "Unknown") = n := by
    rw [objGetD, hname]; rfl
  have hh : (objGetD fields0 "name" (.str "Unknown")).hashable = true := by
    rw [hN]
    exact hhash
  refine ⟨objPop fields2 "id",
    createResult env.writeResult (objPop fields2 "id"), ?_⟩
  rw [importWorkflow_shape fields0 existing hasSession apiKey updateExisting
    env fields2 b ha hh, hN, hmem]

/-- Witness for C4: a definition absent from the snapshot is created with
one POST even in update mode. -/
theorem claim_C4_witness :
    ∃ (bodyFields : List (String × Json)) (res : Bool),
      importWorkflow (.obj [("name", .str "B")]) [] false (some "K") true
          { redisCredId := none, writeResult := .ok 400 }
        = ([credLookupReq false (some "K"),
            createReq false (some "K") bodyFields], .ok res) :=
  claim_C4 [("name", .str "B")] [] false (some "K") true
    { redisCredId := none, writeResult := .ok 400 }
    (.str "B") (by decide) (by decide) (by decide) (by decide)

/-- Claim C6: for every node descriptor of type `n8n-nodes-base.redis` or
`n8n-nodes-base.redisTrigger` whose `redis` credential slot is empty
(falsy or absent), one pass of the auto-wiring loop with a known credential
id fills that slot with the reference `{id, name: "Redis Local"}` and
reports an injection; a second pass on the now-populated descriptor changes
nothing and reports no injection. -/
theorem claim_C6 (credId : Json) (nf cf : List (String × Json))
    (htype : objGetD nf "type" (.str "") ∈ redisNodeTypes)
    (hcreds : objGetD nf "credentials" (.obj []) = .obj cf)
    (hempty : (objGetD cf "redis" .null).truthy = false) :
    ∃ nf' : List (String × Json),
      assignNode credId (.obj nf) = .ok (.obj nf', true)
      ∧ objGetD nf' "credentials" (.obj [])
          = .obj (objSet cf "redis" (redisRef credId))
      ∧ objGet (objSet cf "redis" (redisRef credId)) "redis"
          = some (redisRef credId)
      ∧ assignNode credId (.obj nf') = .ok (.obj nf', false) := by
  refine ⟨objSet nf "credentials" (.obj (objSet cf "redis" (redisRef credId))),
    ?_, ?_, ?_, ?_⟩
  · simp only [assignNode, if_pos htype, hcreds, hempty, Bool.false_eq_true,
      if_false]
  · rw [objGetD, objGet_objSet_self]
    rfl
  · exact objGet_objSet_self cf "redis" (redisRef credId)
  · have htype' :
        objGetD (objSet nf "credentials"
          (.obj (objSet cf "redis" (redisRef credId)))) "type" (.str "")
          = objGetD nf "type" (.str "") := by
      rw [objGetD, objGetD,
        objGet_objSet_other nf "credentials" "type" _ (by decide)]
    have hcreds' :
        objGetD (objSet nf "credentials"
          (.obj (objSet cf "redis" (redisRef credId)))) "credentials" (.obj [])
          = .obj (objSet cf "redis" (redisRef credId)) := by
      rw [objGetD, objGet_objSet_self]
      rfl
    have hredis :
        objGetD (objSet cf "redis" (redisRef credId)) "redis" .null
          = redisRef credId := by
      rw [objGetD, objGet_objSet_self]
      rfl
    simp only [assignNode, htype', if_pos htype, hcreds', hredis]
    rfl

/-- Witness for C6: a bare Redis node gets the credential reference and a
second pass leaves it unchanged. -/
theorem claim_C6_witness :
    ∃ nf' : List (String × Json),
      assignNode (.str "c1") (.obj [("type", .str "n8n-nodes-base.redis")])
        = .ok (.obj nf', true)
      ∧ objGetD nf' "credentials" (.obj [])
          = .obj (objSet [] "redis" (redisRef (.str "c1")))
      ∧ objGet (objSet [] "redis" (redisRef (.str "c1"))) "redis"
          = some (redisRef (.str "c1"))
      ∧ assignNode (.str "c1") (.obj nf') = .ok (.obj nf', false) :=
  claim_C6 (.str "c1") [("type", .str "n8n-nodes-base.redis")] []
    (by decide) (by decide) (by decide)

/-- Claim C10: for a parsed local definition with no `name` field,
`import_workflow` performs the exists-in-catalog check under the substitute
name `"Unknown"` (here: skipping because `"Unknown"` is a snapshot key),
while `main`'s tally classification looks the absent name up as `None`
(here: missing, so the same file is tallied as an error) — the two lookups
disagree. -/
theorem claim_C10 (fields0 : List (String × Json)) (existing : Catalog)
    (hasSession : Bool) (apiKey : Option String) (env : SyncEnv) (rec : Json)
    (hnoname : objGet fields0 "name" = none)
    (hwf : nodesOk fields0 = true)
    (hunk : catFind existing (.str "Unknown") = some rec)
    (hnull : catFind existing .null = none) :
    importWorkflow (.obj fields0) existing hasSession apiKey false env
      = ([credLookupReq hasSession apiKey], .ok false)
    ∧ processFile existing hasSession apiKey false
        { parsed := .ok (.obj fields0), redisCredId := env.redisCredId,
          writeResult := env.writeResult }
      = ([credLookupReq hasSession apiKey], .error) := by
  obtain ⟨⟨fields2, b⟩, ha⟩ :=
    importAssign_strip_total env.redisCredId fields0 hwf
  have hN : objGetD fields0 "name" (.str "Unknown") = .str "Unknown" := by
    rw [objGetD, hnoname]; rfl
  have him : importWorkflow (.obj fields0) existing hasSession apiKey false env
      = ([credLookupReq hasSession apiKey], .ok false) := by
    rw [importWorkflow_shape fields0 existing hasSession apiKey false env
      fields2 b ha (by rw [hN]; rfl), hN, hunk]
    simp
  refine ⟨him, ?_⟩
  have hpn : pyName (.obj fields0) = .null := by
    simp [pyName, objGetD, hnoname]
  simp only [processFile, him, hpn, hnull]
  simp

/-- Witness for C10: a nameless definition is skipped by `import_workflow`
(the snapshot has an entry literally named `Unknown`) but tallied as an
error by `main`. -/
theorem claim_C10_witness :
    importWorkflow (.obj []) [(.str "Unknown", .obj [("id", .str "w1")])]
        true none false { redisCredId := none, writeResult := .ok 200 }
      = ([credLookupReq true none], .ok false)
    ∧ processFile [(.str "Unknown", .obj [("id", .str "w1")])] true none false
        { parsed := .ok (.obj []), redisCredId := none, writeResult := .ok 200 }
      = ([credLookupReq true none], .error) :=
  claim_C10 [] [(.str "Unknown", .obj [("id", .str "w1")])] true none
    { redisCredId := none, writeResult := .ok 200 } (.obj [("id", .str "w1")])
    (by decide) (by decide) (by decide) (by decide)

theorem assignNode_nodeOk (cid n : Json) (p : Json × Bool)
    (h : assignNode cid n = .ok p) (hn : nodeOk n = true) :
    nodeOk p.1 = true := by
  cases n with
  | obj nf =>
    by_cases ht : objGetD nf "type" (.str "") ∈ redisNodeTypes
    · cases hc : objGet nf "credentials" with
      | none =>
        have hd : objGetD nf "credentials" (.obj []) = .obj [] := by
          rw [objGetD, hc]; rfl
        by_cases hr : (objGetD [] "redis" .null).truthy
        · simp only [assignNode, if_pos ht, hd, hr, if_true,
            Except.ok.injEq] at h
          rw [← h, nodeOk, hc]
        · simp only [assignNode, if_pos ht, hd, hr, Bool.false_eq_true,
            if_false, Except.ok.injEq] at h
          rw [← h]
          simp only [nodeOk, objGet_objSet_self]
      | some v =>
        simp only [nodeOk, hc] at hn
        cases v with
        | obj cf =>
          have hd : objGetD nf "credentials" (.obj []) = .obj cf := by
            rw [objGetD, hc]; rfl
          by_cases hr : (objGetD cf "redis" .null).truthy
          · simp only [assignNode, if_pos ht, hd, hr, if_true,
              Except.ok.injEq] at h
            rw [← h, nodeOk, hc]
          · simp only [assignNode, if_pos ht, hd, hr, Bool.false_eq_true,
              if_false, Except.ok.injEq] at h
            rw [← h]
            simp only [nodeOk, objGet_objSet_self]
        | null => simp at hn
        | bool bb => simp at hn
        | num m => simp at hn
        | str s => simp at hn
        | arr es => simp at hn
    · simp only [assignNode, if_neg ht, Except.ok.injEq] at h
      rw [← h, nodeOk]
      rw [nodeOk] at hn
      exact hn
  | null => simp [nodeOk] at hn
  | bool bb => simp [nodeOk] at hn
  | num m => simp [nodeOk] at hn
  | str s => simp [nodeOk] at hn
  | arr es => simp [nodeOk] at hn

theorem assignNodes_nodeOk (cid : Json) (ns : List Json)
    (p : List Json × Bool) (h : assignNodes cid ns = .ok p)
    (hn : ns.all nodeOk = true) : p.1.all nodeOk = true := by
  induction ns generalizing p with
  | nil =>
    simp only [assignNodes, Except.ok.injEq] at h
    rw [← h]
    rfl
  | cons n rest ih =>
    simp only [List.all_cons, Bool.and_eq_true] at hn
    cases ha : assignNode cid n with
    | error e => simp [assignNodes, ha] at h
    | ok q =>
      obtain ⟨n', b⟩ := q
      cases hrest : assignNodes cid rest with
      | error e => simp [assignNodes, ha, hrest] at h
      | ok qr =>
        obtain ⟨rest', b'⟩ := qr
        simp only [assignNodes, ha, hrest, Except.ok.injEq] at h
        rw [← h]
        simp only [List.all_cons, Bool.and_eq_true]
        exact ⟨assignNode_nodeOk cid n (n', b) ha hn.1,
          ih (rest', b') hrest hn.2⟩

theorem importAssign_nodesOk (credId : Option Json)
    (l l' : List (String × Json)) (b : Bool)
    (h : importAssign credId l = .ok (l', b)) (hl : nodesOk l = true) :
    nodesOk l' = true := by
  cases credId with
  | none =>
    simp only [importAssign, Except.ok.injEq, Prod.mk.injEq] at h
    rw [← h.1]
    exact hl
  | some cid =>
    by_cases ht : cid.truthy
    · simp only [importAssign, ht, if_true] at h
      cases hn : objGet l "nodes" with
      | none =>
        simp only [assignRedisFields, hn, Except.ok.injEq, Prod.mk.injEq] at h
        rw [← h.1]
        exact hl
      | some v =>
        cases v with
        | arr ns =>
          simp only [nodesOk, hn] at hl
          cases ha : assignNodes cid ns with
          | error e => simp [assignRedisFields, hn, ha] at h
          | ok p =>
            simp only [assignRedisFields, hn, ha, Except.ok.injEq,
              Prod.mk.injEq] at h
            rw [← h.1]
            simp only [nodesOk, objGet_objSet_self]
            exact assignNodes_nodeOk cid ns p ha hl
        | null => simp [nodesOk, hn] at hl
        | bool bb => simp [nodesOk, hn] at hl
        | num m => simp [nodesOk, hn] at hl
        | str s => simp [nodesOk, hn] at hl
        | obj f => simp [nodesOk, hn] at hl
    · simp only [importAssign, ht, if_false, Bool.false_eq_true,
        Except.ok.injEq, Prod.mk.injEq] at h
      rw [← h.1]
      exact hl

/-- The advisory check's extra well-formedness: the node's `type` value is
hashable, so the dict-membership test `node_type in credential_nodes`
cannot raise.  The spec's node descriptors carry string type tags, which
are hashable. -/
def nodeTypeHashable (n : Json) : Bool :=
  match n with
  | .obj nf => (objGetD nf "type" (.str "")).hashable
  | _ => false

/-- A node descriptor on which both the auto-wiring loop and the advisory
check are exception-free. -/
def advNodeOk (n : Json) : Bool := nodeOk n && nodeTypeHashable n

/-- A workflow dict whose `nodes` entry, if present, is a list of node
descriptors with dict-or-absent credentials and hashable type values. -/
def advNodesOk (l : List (String × Json)) : Bool :=
  match objGet l "nodes" with
  | none => true
  | some (.arr ns) => ns.all advNodeOk
  | some _ => false

theorem advNodesOk_nodesOk (l : List (String × Json))
    (h : advNodesOk l = true) : nodesOk l = true := by
  cases hn : objGet l "nodes" with
  | none => simp [nodesOk, hn]
  | some v =>
    simp only [advNodesOk, hn] at h
    cases v with
    | arr ns =>
      simp only [nodesOk, hn]
      rw [List.all_eq_true] at h ⊢
      intro x hx
      have hx' := h x hx
      simp only [advNodeOk, Bool.and_eq_true] at hx'
      exact hx'.1
    | null => simp at h
    | bool bb => simp at h
    | num m => simp at h
    | str s => simp at h
    | obj f => simp at h

theorem advNodesOk_stripFields (l : List (String × Json)) :
    advNodesOk (stripFields l) = advNodesOk l := by
  unfold advNodesOk
  rw [objGet_stripFields_nodes]

theorem advNodesOk_objPop_id (l : List (String × Json)) :
    advNodesOk (objPop l "id") = advNodesOk l := by
  unfold advNodesOk
  rw [objGet_objPop_other l "id" "nodes" (by decide)]

/-- A normal return of the auto-wiring loop body leaves the node a dict
and its `type` entry untouched. -/
theorem assignNode_ok_type (cid n : Json) (p : Json × Bool)
    (h : assignNode cid n = .ok p) :
    ∃ nf nf', n = .obj nf ∧ p.1 = .obj nf'
      ∧ objGetD nf' "type" (.str "") = objGetD nf "type" (.str "") := by
  cases n with
  | obj nf =>
    refine ⟨nf, ?_⟩
    by_cases ht : objGetD nf "type" (.str "") ∈ redisNodeTypes
    · cases hc : objGet nf "credentials" with
      | none =>
        have hd : objGetD nf "credentials" (.obj []) = .obj [] := by
          rw [objGetD, hc]; rfl
        by_cases hr : (objGetD [] "redis" .null).truthy
        · simp only [assignNode, if_pos ht, hd, hr, if_true,
            Except.ok.injEq] at h
          exact ⟨nf, rfl, by rw [← h], rfl⟩
        · simp only [assignNode, if_pos ht, hd, hr, Bool.false_eq_true,
            if_false, Except.ok.injEq] at h
          refine ⟨objSet nf "credentials"
            (.obj (objSet [] "redis" (redisRef cid))), rfl, by rw [← h], ?_⟩
          rw [objGetD, objGetD,
            objGet_objSet_other nf "credentials" "type" _ (by decide)]
      | some v =>
        cases v with
        | obj cf =>
          have hd : objGetD nf "credentials" (.obj []) = .obj cf := by
            rw [objGetD, hc]; rfl
          by_cases hr : (objGetD cf "redis" .null).truthy
          · simp only [assignNode, if_pos ht, hd, hr, if_true,
              Except.ok.injEq] at h
            exact ⟨nf, rfl, by rw [← h], rfl⟩
          · simp only [assignNode, if_pos ht, hd, hr, Bool.false_eq_true,
              if_false, Except.ok.injEq] at h
            refine ⟨objSet nf "credentials"
              (.obj (objSet cf "redis" (redisRef cid))), rfl, by rw [← h], ?_⟩
            rw [objGetD, objGetD,
              objGet_objSet_other nf "credentials" "type" _ (by decide)]
        | null =>
          have hd : objGetD nf "credentials" (.obj []) = .null := by
            rw [objGetD, hc]; rfl
          simp [assignNode, if_pos ht, hd] at h
        | bool bb =>
          have hd : objGetD nf "credentials" (.obj []) = .bool bb := by
            rw [objGetD, hc]; rfl
          simp [assignNode, if_pos ht, hd] at h
        | num m =>
          have hd : objGetD nf "credentials" (.obj []) = .num m := by
            rw [objGetD, hc]; rfl
          simp [assignNode, if_pos ht, hd] at h
        | str s =>
          have hd : objGetD nf "credentials" (.obj []) = .str s := by
            rw [objGetD, hc]; rfl
          simp [assignNode, if_pos ht, hd] at h
        | arr es =>
          have hd : objGetD nf "credentials" (.obj []) = .arr es := by
            rw [objGetD, hc]; rfl
          simp [assignNode, if_pos ht, hd] at h
    · simp only [assignNode, if_neg ht, Except.ok.injEq] at h
      exact ⟨nf, rfl, by rw [← h], rfl⟩
  | null => simp [assignNode] at h
  | bool bb => simp [assignNode] at h
  | num m => simp [assignNode] at h
  | str s => simp [assignNode] at h
  | arr es => simp [assignNode] at h

theorem assignNode_advNodeOk (cid n : Json) (p : Json × Bool)
    (h : assignNode cid n = .ok p) (hn : advNodeOk n = true) :
    advNodeOk p.1 = true := by
  simp only [advNodeOk, Bool.and_eq_true] at hn ⊢
  refine ⟨assignNode_nodeOk cid n p h hn.1, ?_⟩
  obtain ⟨nf, nf', hn1, hp1, hty⟩ := assignNode_ok_type cid n p h
  rw [hp1]
  simp only [nodeTypeHashable, hty]
  rw [hn1] at hn
  simpa [nodeTypeHashable] using hn.2

theorem assignNodes_advNodeOk (cid : Json) (ns : List Json)
    (p : List Json × Bool) (h : assignNodes cid ns = .ok p)
    (hn : ns.all advNodeOk = true) : p.1.all advNodeOk = true := by
  induction ns generalizing p with
  | nil =>
    simp only [assignNodes, Except.ok.injEq] at h
    rw [← h]
    rfl
  | cons n rest ih =>
    simp only [List.all_cons, Bool.and_eq_true] at hn
    cases ha : assignNode cid n with
    | error e => simp [assignNodes, ha] at h
    | ok q =>
      obtain ⟨n', b⟩ := q
      cases hrest : assignNodes cid rest with
      | error e => simp [assignNodes, ha, hrest] at h
      | ok qr =>
        obtain ⟨rest', b'⟩ := qr
        simp only [assignNodes, ha, hrest, Except.ok.injEq] at h
        rw [← h]
        simp only [List.all_cons, Bool.and_eq_true]
        exact ⟨assignNode_advNodeOk cid n (n', b) ha hn.1,
          ih (rest', b') hrest hn.2⟩

theorem importAssign_advNodesOk (credId : Option Json)
    (l l' : List (String × Json)) (b : Bool)
    (h : importAssign credId l = .ok (l', b)) (hl : advNodesOk l = true) :
    advNodesOk l' = true := by
  cases credId with
  | none =>
    simp only [importAssign, Except.ok.injEq, Prod.mk.injEq] at h
    rw [← h.1]
    exact hl
  | some cid =>
    by_cases ht : cid.truthy
    · simp only [importAssign, ht, if_true] at h
      cases hn : objGet l "nodes" with
      | none =>
        simp only [assignRedisFields, hn, Except.ok.injEq, Prod.mk.injEq] at h
        rw [← h.1]
        exact hl
      | some v =>
        cases v with
        | arr ns =>
          simp only [advNodesOk, hn] at hl
          cases ha : assignNodes cid ns with
          | error e => simp [assignRedisFields, hn, ha] at h
          | ok p =>
            simp only [assignRedisFields, hn, ha, Except.ok.injEq,
              Prod.mk.injEq] at h
            rw [← h.1]
            simp only [advNodesOk, objGet_objSet_self]
            exact assignNodes_advNodeOk cid ns p ha hl
        | null => simp [advNodesOk, hn] at hl
        | bool bb => simp [advNodesOk, hn] at hl
        | num m => simp [advNodesOk, hn] at hl
        | str s => simp [advNodesOk, hn] at hl
        | obj f => simp [advNodesOk, hn] at hl
    · simp only [importAssign, ht, if_false, Bool.false_eq_true,
        Except.ok.injEq, Prod.mk.injEq] at h
      rw [← h.1]
      exact hl

theorem checkNode_total (n : Json) (hn : advNodeOk n = true) :
    ∃ o, checkNode n = .ok o := by
  simp only [advNodeOk, Bool.and_eq_true] at hn
  obtain ⟨hok, hty⟩ := hn
  cases n with
  | obj nf =>
    have hh : (objGetD nf "type" (.str "")).hashable = true := by
      simpa [nodeTypeHashable] using hty
    cases hfind : credentialNodes.find?
        (fun p => p.1 = objGetD nf "type" (.str "")) with
    | none => exact ⟨none, by simp [checkNode, hh, hfind]⟩
    | some e =>
      obtain ⟨t, label⟩ := e
      cases hc : objGet nf "credentials" with
      | none =>
        have hd : objGetD nf "credentials" (.obj []) = .obj [] := by
          rw [objGetD, hc]; rfl
        refine ⟨some label, ?_⟩
        simp [checkNode, hh, hfind, hd, Json.truthy]
      | some v =>
        simp only [nodeOk, hc] at hok
        cases v with
        | obj cf =>
          have hd : objGetD nf "credentials" (.obj []) = .obj cf := by
            rw [objGetD, hc]; rfl
          by_cases htr : (Json.obj cf).truthy
          · exact ⟨if cf.any (fun p => p.2.truthy) then none else some label,
              by simp [checkNode, hh, hfind, hd, htr]⟩
          · exact ⟨some label, by simp [checkNode, hh, hfind, hd, htr]⟩
        | null => simp at hok
        | bool bb => simp at hok
        | num m => simp at hok
        | str s => simp at hok
        | arr es => simp at hok
  | null => simp [nodeOk] at hok
  | bool bb => simp [nodeOk] at hok
  | num m => simp [nodeOk] at hok
  | str s => simp [nodeOk] at hok
  | arr es => simp [nodeOk] at hok

theorem checkNodes_total (ns : List Json) (hn : ns.all advNodeOk = true) :
    ∃ res, checkNodes ns = .ok res := by
  induction ns with
  | nil => exact ⟨[], rfl⟩
  | cons n rest ih =>
    simp only [List.all_cons, Bool.and_eq_true] at hn
    obtain ⟨o, ho⟩ := checkNode_total n hn.1
    obtain ⟨res, hres⟩ := ih hn.2
    exact ⟨o.toList ++ res, by simp [checkNodes, ho, hres]⟩

theorem checkCredsFields_total (l : List (String × Json))
    (h : advNodesOk l = true) : ∃ res, checkCredsFields l = .ok res := by
  cases hn : objGet l "nodes" with
  | none => exact ⟨[], by simp [checkCredsFields, hn]⟩
  | some v =>
    simp only [advNodesOk, hn] at h
    cases v with
    | arr ns =>
      obtain ⟨res, hres⟩ := checkNodes_total ns h
      exact ⟨res, by simp [checkCredsFields, hn, hres]⟩
    | null => simp at h
    | bool bb => simp at h
    | num m => simp at h
    | str s => simp at h
    | obj f => simp at h

/-- On the spec's domain the advisory check cannot raise, so the create
path's result is exactly the status test. -/
theorem createResult_eq (w : Except Unit Nat) (l : List (String × Json))
    (h : advNodesOk l = true) : createResult w l = successStatus w := by
  obtain ⟨res, hres⟩ := checkCredsFields_total l h
  by_cases hs : successStatus w <;> simp [createResult, hs, hres]

theorem nodesOk_objPop_id (l : List (String × Json)) :
    nodesOk (objPop l "id") = nodesOk l := by
  unfold nodesOk
  rw [objGet_objPop_other l "id" "nodes" (by decide)]

/-- Claim C7: for every local definition, a failure of the credential auto-wiring
stage (`get_redis_credential_id` swallows every exception and returns
`None`; on node descriptors with dict-or-absent credentials and hashable
type tags neither the injection loop nor the advisory check can raise)
never changes the file's outcome: the result is the same whatever the
lookup returned, it is a normal boolean return rather than an exception,
and the create/update write is still attempted.  The workflow name (or
its `"Unknown"` substitute) is required to be hashable — an unhashable
name would raise at the membership test independently of auto-wiring. -/
theorem claim_C7 (fields0 : List (String × Json)) (existing : Catalog)
    (hasSession : Bool) (apiKey : Option String) (updateExisting : Bool)
    (credId credId' : Option Json) (w : Except Unit Nat)
    (hwf : advNodesOk fields0 = true)
    (hname : (objGetD fields0 "name" (.str "Unknown")).hashable = true)
    (hdec : catFind existing (objGetD fields0 "name" (.str "Unknown")) = none
      ∨ (updateExisting = true ∧
        ∃ rf, catFind existing (objGetD fields0 "name" (.str "Unknown"))
          = some (.obj rf))) :
    (importWorkflow (.obj fields0) existing hasSession apiKey updateExisting
        { redisCredId := credId, writeResult := w }).2
      = (importWorkflow (.obj fields0) existing hasSession apiKey
          updateExisting { redisCredId := credId', writeResult := w }).2
    ∧ (importWorkflow (.obj fields0) existing hasSession apiKey updateExisting
        { redisCredId := credId, writeResult := w }).2
      = .ok (successStatus w)
    ∧ (∃ r ∈ (importWorkflow (.obj fields0) existing hasSession apiKey
          updateExisting { redisCredId := credId, writeResult := w }).1,
        r.method = .POST ∨ r.method = .PUT) := by
  have hadv : advNodesOk (stripFields fields0) = true := by
    rw [advNodesOk_stripFields]; exact hwf
  have hwf' : nodesOk (stripFields fields0) = true :=
    advNodesOk_nodesOk (stripFields fields0) hadv
  obtain ⟨⟨fields2, b⟩, ha⟩ := importAssign_total credId (stripFields fields0) hwf'
  obtain ⟨⟨fields2', b'⟩, ha'⟩ :=
    importAssign_total credId' (stripFields fields0) hwf'
  have h2 : advNodesOk fields2 = true :=
    importAssign_advNodesOk credId (stripFields fields0) fields2 b ha hadv
  have h2' : advNodesOk fields2' = true :=
    importAssign_advNodesOk credId' (stripFields fields0) fields2' b' ha' hadv
  rw [importWorkflow_shape fields0 existing hasSession apiKey updateExisting
    { redisCredId := credId, writeResult := w } fields2 b ha hname]
  rw [importWorkflow_shape fields0 existing hasSession apiKey updateExisting
    { redisCredId := credId', writeResult := w } fields2' b' ha' hname]
  rcases hdec with hnone | ⟨hupd, rf, hsome⟩
  · rw [hnone]
    refine ⟨?_, ?_, ?_⟩
    · simp only []
      rw [createResult_eq w (objPop fields2 "id")
        (by rw [advNodesOk_objPop_id]; exact h2)]
      rw [createResult_eq w (objPop fields2' "id")
        (by rw [advNodesOk_objPop_id]; exact h2')]
    · simp only []
      rw [createResult_eq w (objPop fields2 "id")
        (by rw [advNodesOk_objPop_id]; exact h2)]
    · exact ⟨createReq hasSession apiKey (objPop fields2 "id"), by simp, Or.inl rfl⟩
  · rw [hsome, hupd]
    refine ⟨rfl, by simp, ?_⟩
    exact ⟨updateReq hasSession apiKey (objGetD rf "id" .null) (objPop fields2 "id"),
      by simp, Or.inr rfl⟩

/-- Witness for C7: with and without a known Redis credential id the
outcome of the create path is identical, is a normal return, and the POST
is issued. -/
theorem claim_C7_witness :
    (importWorkflow
        (.obj [("name", .str "B"),
               ("nodes", .arr [.obj [("type", .str "n8n-nodes-base.redis")]])])
        [] true none false
        { redisCredId := some (.str "c1"), writeResult := .ok 200 }).2
      = (importWorkflow
        (.obj [("name", .str "B"),
               ("nodes", .arr [.obj [("type", .str "n8n-nodes-base.redis")]])])
        [] true none false
        { redisCredId := none, writeResult := .ok 200 }).2
    ∧ (importWorkflow
        (.obj [("name", .str "B"),
               ("nodes", .arr [.obj [("type", .str "n8n-nodes-base.redis")]])])
        [] true none false
        { redisCredId := some (.str "c1"), writeResult := .ok 200 }).2
      = .ok (successStatus (.ok 200))
    ∧ (∃ r ∈ (importWorkflow
        (.obj [("name", .str "B"),
               ("nodes", .arr [.obj [("type", .str "n8n-nodes-base.redis")]])])
        [] true none false
        { redisCredId := some (.str "c1"), writeResult := .ok 200 }).1,
        r.method = .POST ∨ r.method = .PUT) :=
  claim_C7 [("name", .str "B"),
      ("nodes", .arr [.obj [("type", .str "n8n-nodes-base.redis")]])]
    [] true none false (some (.str "c1")) none (.ok 200)
    (by decide) (by decide) (Or.inl (by decide))

/-- Counterexample to C8 as stated: in the reachable bare-list response
`[ {"name": []}, {"name": "A", "id": 1} ]` the dict comprehension hashes
the unhashable name `[]`, the raised `TypeError` is caught, and
`get_existing_workflows` returns the empty map — so the output does *not*
map the name `"A"` to the (unique, hence also last) record carrying it,
refuting the claimed name-to-record mapping. -/
theorem claim_C8_counterexample :
    getExisting200 (.arr [.obj [("name", .arr [])],
                          .obj [("name", .str "A"), ("id", .num 1)]]) = []
    ∧ lastNamed (.str "A") [.obj [("name", .arr [])],
                            .obj [("name", .str "A"), ("id", .num 1)]]
      = some (.obj [("name", .str "A"), ("id", .num 1)])
    ∧ catFind (getExisting200 (.arr [.obj [("name", .arr [])],
        .obj [("name", .str "A"), ("id", .num 1)]])) (.str "A") = none := by
  decide

/-- Claim C8 (amended): on a successful catalog response,
`get_existing_workflows` accepts exactly three body shapes — a bare list,
an object carrying the list under `data` or (when `data` is absent) under
`workflows`, and any other type, treated as an empty catalog — and,
provided every dict entry's name value is hashable, the resulting map
sends each workflow name to its record with the later entry (under Python
key equality) winning when several share a name; when some entry's name is
unhashable, the comprehension's `TypeError` is caught and the whole
catalog degrades to empty. -/
theorem claim_C8 :
    (∀ ws : List Json, getExisting200 (.arr ws) = catalogOfList ws)
    ∧ (∀ (f : List (String × Json)) (ws : List Json),
        objGet f "data" = some (.arr ws) →
        getExisting200 (.obj f) = catalogOfList ws)
    ∧ (∀ (f : List (String × Json)) (ws : List Json),
        objGet f "data" = none → objGet f "workflows" = some (.arr ws) →
        getExisting200 (.obj f) = catalogOfList ws)
    ∧ (∀ b : Json, isListOrDict b = false → getExisting200 b = [])
    ∧ (∀ (ws : List Json) (n : Json), namesHashable ws = true →
        catFind (catalogOfList ws) n = lastNamed n ws)
    ∧ (∀ ws : List Json, namesHashable ws = false →
        catalogOfList ws = []) := by
  refine ⟨fun ws => rfl, ?_, ?_, ?_, catFind_catalogOfList,
    catalogOfList_unhashable⟩
  · intro f ws hd
    simp [getExisting200, objGetD, hd]
  · intro f ws hd hw
    simp [getExisting200, objGetD, hd, hw]
  · intro b hb
    cases b with
    | arr ws => simp [isListOrDict] at hb
    | obj f => simp [isListOrDict] at hb
    | null => rfl
    | bool bb => rfl
    | num m => rfl
    | str s => rfl

/-- Witness for C8 at concrete bodies: both wrapped shapes, an unexpected
shape, a duplicate-name response where the later record wins, and an
unhashable-name response degrading to the empty catalog. -/
theorem claim_C8_witness :
    getExisting200 (.obj [("data", .arr
        [.obj [("name", .str "X"), ("id", .str "1")],
         .obj [("name", .str "X"), ("id", .str "2")]])])
      = catalogOfList
        [.obj [("name", .str "X"), ("id", .str "1")],
         .obj [("name", .str "X"), ("id", .str "2")]]
    ∧ getExisting200 (.obj [("workflows", .arr [.obj [("name", .str "Y")]])])
      = catalogOfList [.obj [("name", .str "Y")]]
    ∧ getExisting200 (.str "unexpected") = []
    ∧ catFind (catalogOfList
        [.obj [("name", .str "X"), ("id", .str "1")],
         .obj [("name", .str "X"), ("id", .str "2")]]) (.str "X")
      = lastNamed (.str "X")
        [.obj [("name", .str "X"), ("id", .str "1")],
         .obj [("name", .str "X"), ("id", .str "2")]]
    ∧ catalogOfList [.obj [("name", .obj [])]] = [] :=
  ⟨claim_C8.2.1 [("data", .arr
      [.obj [("name", .str "X"), ("id", .str "1")],
       .obj [("name", .str "X"), ("id", .str "2")]])]
      [.obj [("name", .str "X"), ("id", .str "1")],
       .obj [("name", .str "X"), ("id", .str "2")]] (by decide),
   claim_C8.2.2.1 [("workflows", .arr [.obj [("name", .str "Y")]])]
      [.obj [("name", .str "Y")]] (by decide) (by decide),
   claim_C8.2.2.2.1 (.str "unexpected") (by decide),
   claim_C8.2.2.2.2.1
      [.obj [("name", .str "X"), ("id", .str "1")],
       .obj [("name", .str "X"), ("id", .str "2")]] (.str "X") (by decide),
   claim_C8.2.2.2.2.2 [.obj [("name", .obj [])]] (by decide)⟩

/-- A run that passes authentication resolution and the connectivity probe
reaches the file-processing phase: its exit status and tally are those of
`runFiles`. -/
theorem mainRun_reaches (env : RunEnv)
    (hauth : ((credsTruthy env.emailPass && env.loginOk)
      || keyTruthy env.apiKeyFile) = true)
    (hprobe : env.probeResult = .ok 200) :
    (mainRun env).exitCode =
      (runFiles (runCatalog env.catalogResult)
        (credsTruthy env.emailPass && env.loginOk)
        (if credsTruthy env.emailPass && env.loginOk then none
         else env.apiKeyFile)
        env.updateFlag env.files).2.1
    ∧ (mainRun env).counts =
      (runFiles (runCatalog env.catalogResult)
        (credsTruthy env.emailPass && env.loginOk)
        (if credsTruthy env.emailPass && env.loginOk then none
         else env.apiKeyFile)
        env.updateFlag env.files).2.2 := by
  have hcond : (!(credsTruthy env.emailPass && env.loginOk)
      && !keyTruthy (if credsTruthy env.emailPass && env.loginOk then none
            else env.apiKeyFile)) = false := by
    cases hs : credsTruthy env.emailPass && env.loginOk
    · rw [hs] at hauth
      simp only [Bool.false_or] at hauth
      simp [hauth]
    · simp
  simp only [mainRun, hcond, hprobe, Bool.false_eq_true, if_false]
  simp

theorem exit_iff (m : Nat) : ((if m > 0 then 1 else 0 : Nat) ≠ 0 ↔ 0 < m) := by
  by_cases h : 0 < m <;> simp [h]

/-- Claim C5: for every run that reaches the file-processing phase (credentials
resolved, connectivity probe succeeded), the exit status is non-zero if and
only if the tallied error count is positive; a run that finds zero local
definition files exits 0 with zero outcomes. -/
theorem claim_C5 (env : RunEnv)
    (hauth : ((credsTruthy env.emailPass && env.loginOk)
      || keyTruthy env.apiKeyFile) = true)
    (hprobe : env.probeResult = .ok 200) :
    ((mainRun env).exitCode ≠ 0 ↔ 0 < (mainRun env).counts.error)
    ∧ (env.files = [] →
        (mainRun env).exitCode = 0 ∧ (mainRun env).counts = ⟨0, 0, 0⟩) := by
  obtain ⟨he, hc⟩ := mainRun_reaches env hauth hprobe
  cases hfiles : env.files with
  | nil =>
    rw [hfiles] at he hc
    rw [he, hc]
    simp [runFiles]
  | cons f fs =>
    rw [hfiles] at he hc
    rw [he, hc]
    constructor
    · exact exit_iff _
    · intro hfe
      exact absurd hfe (by simp)

/-- Witness for C5: a reaching run with one failing and one succeeding file
exits 1, and a reaching run with no files exits 0 with zero outcomes. -/
theorem claim_C5_witness :
    ((mainRun
      { emailPass := some ("a@b.c", "pw"), loginOk := true, apiKeyFile := none,
        probeResult := .ok 200, catalogResult := .ok (200, .arr []),
        updateFlag := false,
        files := [{ parsed := .error "bad json", redisCredId := none,
                    writeResult := .ok 200 },
                  { parsed := .ok (.obj [("name", .str "B")]),
                    redisCredId := none, writeResult := .ok 201 }] }).exitCode ≠ 0
      ↔ 0 < (mainRun
      { emailPass := some ("a@b.c", "pw"), loginOk := true, apiKeyFile := none,
        probeResult := .ok 200, catalogResult := .ok (200, .arr []),
        updateFlag := false,
        files := [{ parsed := .error "bad json", redisCredId := none,
                    writeResult := .ok 200 },
                  { parsed := .ok (.obj [("name", .str "B")]),
                    redisCredId := none, writeResult := .ok 201 }] }).counts.error)
    ∧ ((mainRun
      { emailPass := some ("a@b.c", "pw"), loginOk := true, apiKeyFile := none,
        probeResult := .ok 200, catalogResult := .ok (200, .arr []),
        updateFlag := false, files := [] }).exitCode ≠ 0
      ↔ 0 < (mainRun
      { emailPass := some ("a@b.c", "pw"), loginOk := true, apiKeyFile := none,
        probeResult := .ok 200, catalogResult := .ok (200, .arr []),
        updateFlag := false, files := [] }).counts.error) :=
  ⟨(claim_C5
      { emailPass := some ("a@b.c", "pw"), loginOk := true, apiKeyFile := none,
        probeResult := .ok 200, catalogResult := .ok (200, .arr []),
        updateFlag := false,
        files := [{ parsed := .error "bad json", redisCredId := none,
                    writeResult := .ok 200 },
                  { parsed := .ok (.obj [("name", .str "B")]),
                    redisCredId := none, writeResult := .ok 201 }] }
      (by decide) rfl).1,
   (claim_C5
      { emailPass := some ("a@b.c", "pw"), loginOk := true, apiKeyFile := none,
        probeResult := .ok 200, catalogResult := .ok (200, .arr []),
        updateFlag := false, files := [] }
      (by decide) rfl).1⟩

/-- Whether a request carries the static `X-N8N-API-KEY` header. -/
def hasApiKeyHeader (r : Request) : Bool :=
  r.headers.any (fun p => p.1 = "X-N8N-API-KEY")

/-- Every request issued by `import_workflow` carries either the bare auth
headers (the credential-lookup GET) or the write headers. -/
theorem importWorkflow_trace_headers (wf : Json) (existing : Catalog)
    (hasSession : Bool) (apiKey : Option String) (updateExisting : Bool)
    (env : SyncEnv) (r : Request)
    (hr : r ∈ (importWorkflow wf existing hasSession apiKey updateExisting env).1) :
    r.headers = authHeader hasSession apiKey
    ∨ r.headers = writeHeaders hasSession apiKey := by
  cases wf with
  | obj fields0 =>
    cases ha : importAssign env.redisCredId (stripFields fields0) with
    | error e =>
      simp only [importWorkflow, ha, List.mem_singleton] at hr
      subst hr
      exact Or.inl rfl
    | ok p =>
      obtain ⟨fields2, b⟩ := p
      rcases (Bool.eq_false_or_eq_true
        (objGetD fields0 "name" (.str "Unknown")).hashable).symm with hh | hh
      · simp only [importWorkflow, ha, hh, Bool.not_false, if_true,
          List.mem_singleton] at hr
        subst hr
        exact Or.inl rfl
      rw [importWorkflow_shape fields0 existing hasSession apiKey
        updateExisting env fields2 b ha hh] at hr
      cases hc : catFind existing (objGetD fields0 "name" (.str "Unknown")) with
      | none =>
        simp only [hc, List.mem_cons, List.mem_singleton] at hr
        rcases hr with rfl | rfl | hr
        · exact Or.inl rfl
        · exact Or.inr rfl
        · exact absurd hr (List.not_mem_nil r)
      | some record =>
        by_cases hu : updateExisting = true
        · simp only [hc, hu, if_true] at hr
          cases record with
          | obj rf =>
            simp only [List.mem_cons, List.mem_singleton] at hr
            rcases hr with rfl | rfl | hr
            · exact Or.inl rfl
            · exact Or.inr rfl
            · exact absurd hr (List.not_mem_nil r)
          | null =>
            simp only [List.mem_singleton] at hr
            subst hr; exact Or.inl rfl
          | bool bb =>
            simp only [List.mem_singleton] at hr
            subst hr; exact Or.inl rfl
          | num m =>
            simp only [List.mem_singleton] at hr
            subst hr; exact Or.inl rfl
          | str s =>
            simp only [List.mem_singleton] at hr
            subst hr; exact Or.inl rfl
          | arr es =>
            simp only [List.mem_singleton] at hr
            subst hr; exact Or.inl rfl
        · simp only [hc, hu, Bool.false_eq_true, if_false,
            List.mem_singleton] at hr
          subst hr; exact Or.inl rfl
  | null => simp [importWorkflow] at hr
  | bool bb => simp [importWorkflow] at hr
  | num m => simp [importWorkflow] at hr
  | str s => simp [importWorkflow] at hr
  | arr es => simp [importWorkflow] at hr

/-- The per-file trace of `main`'s loop is empty (parse failure) or exactly
the trace of the `import_workflow` call. -/
theorem processFile_trace (existing : Catalog) (hasSession : Bool)
    (apiKey : Option String) (updateExisting : Bool) (fe : FileEnv) :
    (processFile existing hasSession apiKey updateExisting fe).1 = [] ∨
    ∃ wf, fe.parsed = .ok wf ∧
      (processFile existing hasSession apiKey updateExisting fe).1 =
        (importWorkflow wf existing hasSession apiKey updateExisting
          { redisCredId := fe.redisCredId,
            writeResult := fe.writeResult }).1 := by
  cases hp : fe.parsed with
  | error e => exact Or.inl (by simp [processFile, hp])
  | ok wf =>
    refine Or.inr ⟨wf, rfl, ?_⟩
    rcases him : importWorkflow wf existing hasSession apiKey updateExisting
      { redisCredId := fe.redisCredId, writeResult := fe.writeResult }
      with ⟨tr, res⟩
    cases res with
    | error e => simp [processFile, hp, him]
    | ok bb =>
      cases bb
      · by_cases hcond :
          ((catFind existing (pyName wf)).isSome && !updateExisting) = true
        · simp [processFile, hp, him, hcond]
        · simp [processFile, hp, him, hcond]
      · simp [processFile, hp, him]

theorem processFile_trace_headers (existing : Catalog) (hasSession : Bool)
    (apiKey : Option String) (updateExisting : Bool) (fe : FileEnv)
    (r : Request)
    (hr : r ∈ (processFile existing hasSession apiKey updateExisting fe).1) :
    r.headers = authHeader hasSession apiKey
    ∨ r.headers = writeHeaders hasSession apiKey := by
  rcases processFile_trace existing hasSession apiKey updateExisting fe with
    h | ⟨wf, hp, h⟩
  · rw [h] at hr
    exact absurd hr (List.not_mem_nil r)
  · rw [h] at hr
    exact importWorkflow_trace_headers wf existing hasSession apiKey
      updateExisting _ r hr

theorem runFiles_trace_headers (existing : Catalog) (hasSession : Bool)
    (apiKey : Option String) (updateFlag : Bool) (files : List FileEnv)
    (r : Request)
    (hr : r ∈ (runFiles existing hasSession apiKey updateFlag files).1) :
    r.headers = authHeader hasSession apiKey
    ∨ r.headers = writeHeaders hasSession apiKey := by
  cases files with
  | nil => simp [runFiles] at hr
  | cons f fs =>
    simp only [runFiles, List.isEmpty_cons, Bool.false_eq_true, if_false] at hr
    rw [List.mem_flatten] at hr
    obtain ⟨tr, htr, hrtr⟩ := hr
    rw [List.mem_map] at htr
    obtain ⟨pr, hpr2, htr2⟩ := htr
    rw [List.mem_map] at hpr2
    obtain ⟨fe, hfe, hpr3⟩ := hpr2
    subst htr2
    subst hpr3
    exact processFile_trace_headers existing hasSession apiKey updateFlag
      fe r hrtr

theorem headers_no_key (r : Request)
    (h : r.headers = authHeader true none ∨ r.headers = writeHeaders true none) :
    hasApiKeyHeader r = false := by
  rcases h with h | h <;> rw [hasApiKeyHeader, h] <;> rfl

/-- Claim C9: in every run where the email/password source yields usable material
and the login exchange succeeds, no HTTP request of the whole run carries
the static `X-N8N-API-KEY` header — cookie-session authentication is used
exclusively (the API key is never even loaded). -/
theorem claim_C9 (env : RunEnv)
    (hcreds : credsTruthy env.emailPass = true)
    (hlogin : env.loginOk = true)
    (hkey : keyTruthy env.apiKeyFile = true)
    (r : Request) (hr : r ∈ (mainRun env).trace) :
    hasApiKeyHeader r = false := by
  cases he : env.emailPass with
  | none => rw [he] at hcreds; simp [credsTruthy] at hcreds
  | some ep =>
    obtain ⟨e, p⟩ := ep
    rw [he] at hcreds
    have hep : (!e.isEmpty && !p.isEmpty) = true := by
      simpa [credsTruthy] using hcreds
    have hS : (credsTruthy (some (e, p)) && env.loginOk) = true := by
      rw [hlogin]
      simpa [credsTruthy] using hep
    simp only [mainRun, he, hep, hS, if_true, Bool.not_true, Bool.false_and,
      Bool.false_eq_true, if_false] at hr
    -- hr is now membership in the concrete branch traces
    have hlog : hasApiKeyHeader (loginReq e p) = false := rfl
    have hlist : hasApiKeyHeader (listWorkflowsReq true none) = false := rfl
    cases hpr : env.probeResult with
    | error u =>
      rw [hpr] at hr
      simp only [List.mem_append, List.mem_singleton] at hr
      rcases hr with rfl | rfl
      · exact hlog
      · exact hlist
    | ok status =>
      rw [hpr] at hr
      by_cases hst : status = 200
      · subst hst
        simp only [ne_eq, not_true_eq_false, if_false, List.append_assoc,
          List.mem_append, List.mem_singleton, reduceIte] at hr
        rcases hr with rfl | rfl | rfl | hr
        · exact hlog
        · exact hlist
        · exact hlist
        · exact headers_no_key r
            (runFiles_trace_headers _ true none env.updateFlag env.files r hr)
      · simp only [ne_eq, hst, not_false_eq_true, if_true,
          List.mem_append, List.mem_singleton, reduceIte] at hr
        rcases hr with rfl | rfl
        · exact hlog
        · exact hlist

/-- Witness for C9: in a concrete run with both credential sources present
and a successful login, the catalog-listing request issued by the run has
no API-key header. -/
theorem claim_C9_witness :
    hasApiKeyHeader (listWorkflowsReq true none) = false :=
  claim_C9
    { emailPass := some ("a@b.c", "pw"), loginOk := true,
      apiKeyFile := some "K", probeResult := .ok 200,
      catalogResult := .ok (200, .arr []), updateFlag := false,
      files := [{ parsed := .ok (.obj [("name", .str "B")]),
                  redisCredId := some (.str "c1"),
                  writeResult := .ok 200 }] }
    (by decide) rfl (by decide) (listWorkflowsReq true none) (by decide)

end ImportWorkflows
